import Mathlib

/-!
Verification development for the PyWindowsCMD repository (netstat output
parsers and taskkill command builders).

The Python source is shallowly embedded: Python `str` values are modelled as
`List Char` (the decoded console text is ASCII in every behaviour considered
here, so the ASCII reading of `\w`, `\s`, `\d` coincides with Python's), the
raised exceptions are modelled by the `PyErr` type carried in `Except`, and
`pandas.DataFrame` results are modelled as lists of typed rows (for the fixed
two- and three-column statistics tables) or as an explicit
`columns`/`rows` table (for the dynamically-schematised connection list).

The regular expressions `re.search`/`re.findall` from the source are embedded
in two ways:
* the fixed statistics patterns are implemented as dedicated recursive
  matchers whose greedy/lazy behaviour is spelled out step by step
  (`findSection`, `findallStat`, `findallStat2`, `findallEthernet`);
* the dynamically assembled connection-list pattern is implemented with a
  small backtracking regex engine (`RE`, `mseq`) faithful to Python's
  leftmost, ordered-alternation, greedy-with-backtracking semantics.
-/

namespace PyWindowsCMD

/-- Python string model: a Python `str` is a sequence of characters. -/
abbrev PyStr := List Char

/-- Model of the exceptions raised by the repository.

* `netstatOutput msg` models `PyWindowsCMD.errors.NetstatOutputError(msg)`;
* `indexError` models the built-in `IndexError` from an out-of-range index;
* `valueError msg` models the built-in `ValueError(msg)`;
* `wrongCommandLineParameter what invalid valid filterName` models
  `PyWindowsCMD.errors.WrongCommandLineParameter` whose formatted message is
  `Invalid {invalid} {what} for {filterName} filter. Valid {what}s {valid}`:
  the structured fields record exactly the data interpolated into the
  message (the invalid operator/value, the list of accepted ones, and the
  filter name that the message cites). -/
inductive PyErr where
  | netstatOutput (msg : String)
  | indexError
  | valueError (msg : String)
  | wrongCommandLineParameter (what : String) (invalid : String)
      (valid : List String) (filterName : String)
deriving DecidableEq, Repr

/-- ASCII model of the regex class `\w` (`[A-Za-z0-9_]`). -/
def isWordChar (c : Char) : Bool := c.isAlphanum || c = '_'

/-- ASCII model of the regex class `\s` (space, tab, newline, carriage
return, vertical tab, form feed). -/
def isSpaceChar (c : Char) : Bool :=
  c = ' ' || c = '\t' || c = '\n' || c = '\r' || c = '\x0b' || c = '\x0c'

/-- ASCII model of the regex class `\d` (`[0-9]`). -/
def isDigitChar (c : Char) : Bool := c.isDigit

/-- Model of the regex class `[\w-]` used by `read_ethernet_statistics`. -/
def isWordDashChar (c : Char) : Bool := isWordChar c || c = '-'

/-- Model of Python `int(s)` on the strings produced by the parsers' digit
captures: an optional ASCII sign followed by decimal digits. -/
def pyInt (s : PyStr) : Int :=
  match s with
  | '-' :: t => -((Nat.ofDigits 10 ((t.map (fun c => c.toNat - 48)).reverse) : Nat) : Int)
  | '+' :: t => ((Nat.ofDigits 10 ((t.map (fun c => c.toNat - 48)).reverse) : Nat) : Int)
  | t => ((Nat.ofDigits 10 ((t.map (fun c => c.toNat - 48)).reverse) : Nat) : Int)

/-! ## The section-anchoring search of the statistics parsers

Every statistics parser in `netstat/__init__.py` runs
`re.search(label + r"(?:\r\n)+(.+?)(?:(?:\r\n){2}|\Z)", cmd_output, re.DOTALL)`
and keeps `group(1)`.  `findSection` implements that search: it scans for the
leftmost position where the literal `label` matches and the tail pattern
succeeds.  After the label, `(?:\r\n)+` greedily consumes the maximal run of
`"\r\n"` repetitions, backtracking one repetition only when the lazy group
`(.+?)` (which needs at least one character) would otherwise be left with an
empty remainder; the lazy group then extends one character at a time until
the remainder starts with `"\r\n\r\n"` (the alternative `(?:\r\n){2}`, tried
first) or is exhausted (`\Z`). -/

/-- Number of leading `"\r\n"` repetitions, i.e. the greedy count consumed
by `(?:\r\n)+`. -/
def crlfRuns : PyStr → Nat
  | '\r' :: '\n' :: t => crlfRuns t + 1
  | _ => 0

/-- Does the string start with `"\r\n\r\n"` (the `(?:\r\n){2}` terminator)? -/
def startsCRLF2 (s : PyStr) : Bool := ['\r', '\n', '\r', '\n'].isPrefixOf s

/-- The lazy group `(.+?)` followed by `(?:(?:\r\n){2}|\Z)`: the shortest
non-empty prefix whose remainder starts with `"\r\n\r\n"` or is empty. -/
def lazyBody : PyStr → PyStr
  | [] => []
  | c :: t => c :: (if startsCRLF2 t || t.isEmpty then [] else lazyBody t)

/-- The part of the section pattern after the literal label:
`(?:\r\n)+(.+?)(?:(?:\r\n){2}|\Z)`, returning the captured group. -/
def sectionTail (r : PyStr) : Option PyStr :=
  let m := crlfRuns r
  if m = 0 then none
  else
    let r' := r.drop (2 * m)
    if r'.isEmpty then
      if 2 ≤ m then some ['\r', '\n'] else none
    else some (lazyBody r')

/-- `re.search(label + r"(?:\r\n)+(.+?)(?:(?:\r\n){2}|\Z)", s, re.DOTALL)`,
returning `group(1)` of the leftmost match. -/
def findSection (label : PyStr) : PyStr → Option PyStr
  | [] => none
  | s@(_ :: t) =>
    if label.isPrefixOf s then
      match sectionTail (s.drop label.length) with
      | some g => some g
      | none => findSection label t
    else findSection label t

/-! ## The row-extraction patterns of the statistics parsers

`re.findall(r"(\w+(?: \w+)*)\s{2,}= (\d+)", block)` (single-counter tables),
`re.findall(r"(\w+(?: \w+)*)\s{2,}(\d+)\s{2,}(\d+)", block)` (the ICMP
tables) and `re.findall(r"([\w-]+(?: [\w-]+)*)\s{2,}(\d+)\s{2,}(\d*)", ...)`
(`read_ethernet_statistics`).  In each of these patterns the greedy pieces
never profit from giving characters back: shrinking `\w+` or an iteration of
`(?: \w+)*` exposes a word character or a single space followed by a word
character exactly where the continuation `\s{2,}` demands two whitespace
characters, shrinking `\s{2,}` exposes a whitespace character where a literal
`=` or a digit is demanded, and shrinking `\d+` exposes a digit where
whitespace is demanded.  The matchers below therefore consume each maximal
run outright. -/

theorem length_dropWhile_le {α : Type} (p : α → Bool) (l : List α) :
    (l.dropWhile p).length ≤ l.length := (List.dropWhile_sublist p).length_le

theorem length_dropWhile_lt {α : Type} {p : α → Bool} {l : List α}
    (h : ¬(l.takeWhile p).isEmpty = true) :
    (l.dropWhile p).length < l.length := by
  cases l with
  | nil => simp at h
  | cons c t =>
    by_cases hc : p c
    · rw [List.dropWhile_cons_of_pos hc]
      exact Nat.lt_succ_of_le (length_dropWhile_le p t)
    · rw [List.takeWhile_cons_of_neg hc] at h
      simp at h

/-- The greedy word-group iteration `(?: \w+)*` of the statistics patterns:
repeatedly consume a single space followed by a non-empty run of word
characters, returning the consumed extension and the remainder.  The `fuel`
argument only bounds the recursion depth; each iteration consumes at least
two characters, so `wordSeqExt` below supplies fuel that is never
exhausted. -/
def wordSeqExtF : Nat → PyStr → PyStr × PyStr
  | 0, s => ([], s)
  | fuel + 1, ' ' :: rest =>
    if (rest.takeWhile isWordChar).isEmpty then ([], ' ' :: rest)
    else
      (' ' :: rest.takeWhile isWordChar ++ (wordSeqExtF fuel (rest.dropWhile isWordChar)).1,
        (wordSeqExtF fuel (rest.dropWhile isWordChar)).2)
  | _ + 1, s => ([], s)

/-- `(?: \w+)*` at the start of `s`. -/
def wordSeqExt (s : PyStr) : PyStr × PyStr := wordSeqExtF s.length s

theorem wordSeqExtF_nil (n : Nat) : wordSeqExtF n [] = ([], []) := by
  cases n <;> rfl

theorem wordSeqExtF_stop {rest : PyStr} (n : Nat)
    (h : (rest.takeWhile isWordChar).isEmpty) :
    wordSeqExtF (n + 1) (' ' :: rest) = ([], ' ' :: rest) := by
  rw [wordSeqExtF, if_pos h]

theorem wordSeqExtF_step {rest : PyStr} (n : Nat)
    (h : ¬(rest.takeWhile isWordChar).isEmpty = true) :
    wordSeqExtF (n + 1) (' ' :: rest) =
      (' ' :: rest.takeWhile isWordChar ++
          (wordSeqExtF n (rest.dropWhile isWordChar)).1,
        (wordSeqExtF n (rest.dropWhile isWordChar)).2) := by
  rw [wordSeqExtF, if_neg h]

theorem wordSeqExtF_other {c : Char} {t : PyStr} (n : Nat) (h : c ≠ ' ') :
    wordSeqExtF n (c :: t) = ([], c :: t) := by
  cases n with
  | zero => rfl
  | succ n =>
    rw [wordSeqExtF.eq_def]
    split
    · rfl
    · next heq => exact absurd (List.cons.injEq .. ▸ heq).1 h
    · rfl

theorem wordSeqExtF_snd_le (n : Nat) (s : PyStr) :
    (wordSeqExtF n s).2.length ≤ s.length := by
  induction n generalizing s with
  | zero => exact le_rfl
  | succ n ih =>
    match s with
    | [] => rw [wordSeqExtF_nil]
    | c :: t =>
      by_cases hc : c = ' '
      · subst hc
        by_cases hrun : (t.takeWhile isWordChar).isEmpty
        · rw [wordSeqExtF_stop n hrun]
        · rw [wordSeqExtF_step n hrun]
          exact le_trans (ih _)
            (le_trans (length_dropWhile_le _ _) (Nat.le_succ _))
      · rw [wordSeqExtF_other (n + 1) hc]

theorem wordSeqExt_snd_le (s : PyStr) : (wordSeqExt s).2.length ≤ s.length :=
  wordSeqExtF_snd_le s.length s

/-- Attempt `(\w+(?: \w+)*)\s{2,}= (\d+)` at the start of `s`; on success
return the two captures and the remainder of the string. -/
def matchStatRow (s : PyStr) : Option ((PyStr × PyStr) × PyStr) :=
  if (s.takeWhile isWordChar).isEmpty then none
  else
    if ((wordSeqExt (s.dropWhile isWordChar)).2.takeWhile isSpaceChar).length < 2 then none
    else
      match (wordSeqExt (s.dropWhile isWordChar)).2.dropWhile isSpaceChar with
      | '=' :: ' ' :: r3 =>
        if (r3.takeWhile isDigitChar).isEmpty then none
        else some ((s.takeWhile isWordChar ++ (wordSeqExt (s.dropWhile isWordChar)).1,
            r3.takeWhile isDigitChar), r3.dropWhile isDigitChar)
      | _ => none

theorem matchStatRow_rest_lt {s : PyStr} {g : PyStr × PyStr} {rest : PyStr}
    (h : matchStatRow s = some (g, rest)) : rest.length < s.length := by
  unfold matchStatRow at h
  split at h
  · simp at h
  · next hw =>
    split at h
    · simp at h
    · split at h
      · next r3 heq =>
        split at h
        · simp at h
        · simp only [Option.some.injEq, Prod.mk.injEq] at h
          obtain ⟨-, hrest⟩ := h
          calc rest.length ≤ r3.length := hrest ▸ length_dropWhile_le isDigitChar _
            _ < ((wordSeqExt (s.dropWhile isWordChar)).2.dropWhile isSpaceChar).length := by
                rw [heq]; simp; omega
            _ ≤ (wordSeqExt (s.dropWhile isWordChar)).2.length := length_dropWhile_le _ _
            _ ≤ (s.dropWhile isWordChar).length := wordSeqExt_snd_le _
            _ < s.length := length_dropWhile_lt hw
      · simp at h

/-- The scanning loop of `re.findall(r"(\w+(?: \w+)*)\s{2,}= (\d+)", s)`:
scan left to right, emitting each non-overlapping match.  Every step
consumes at least one character, so fuel `s.length` (supplied by
`findallStat`) is never exhausted. -/
def findallStatF : Nat → PyStr → List (PyStr × PyStr)
  | 0, _ => []
  | fuel + 1, s =>
    match s with
    | [] => []
    | c :: t =>
      match matchStatRow (c :: t) with
      | some (g, rest) => g :: findallStatF fuel rest
      | none => findallStatF fuel t

/-- `re.findall(r"(\w+(?: \w+)*)\s{2,}= (\d+)", s)`. -/
def findallStat (s : PyStr) : List (PyStr × PyStr) := findallStatF s.length s

theorem findallStatF_nil (n : Nat) : findallStatF n [] = [] := by
  cases n <;> rfl

theorem findallStatF_cons_some {c : Char} {t : PyStr} {g : PyStr × PyStr} {rest : PyStr}
    (n : Nat) (h : matchStatRow (c :: t) = some (g, rest)) :
    findallStatF (n + 1) (c :: t) = g :: findallStatF n rest := by
  rw [findallStatF, h]

theorem findallStatF_cons_none {c : Char} {t : PyStr} (n : Nat)
    (h : matchStatRow (c :: t) = none) :
    findallStatF (n + 1) (c :: t) = findallStatF n t := by
  rw [findallStatF, h]

/-- With enough fuel the scan result does not depend on the fuel. -/
theorem findallStatF_fuel {n m : Nat} (s : PyStr) (hn : s.length ≤ n)
    (hm : s.length ≤ m) : findallStatF n s = findallStatF m s := by
  induction n generalizing s m with
  | zero =>
    have : s = [] := List.eq_nil_of_length_eq_zero (Nat.le_zero.mp hn)
    subst this
    rw [findallStatF_nil, findallStatF_nil]
  | succ n ih =>
    match s with
    | [] => rw [findallStatF_nil, findallStatF_nil]
    | c :: t =>
      obtain ⟨m2, rfl⟩ : ∃ m2, m = m2 + 1 := by
        cases m with
        | zero => simp at hm
        | succ m2 => exact ⟨m2, rfl⟩
      match h : matchStatRow (c :: t) with
      | some (g, rest) =>
        rw [findallStatF_cons_some n h, findallStatF_cons_some m2 h]
        have hrest := matchStatRow_rest_lt h
        simp only [List.length_cons] at hn hm hrest
        exact congrArg _ (ih rest (by omega) (by omega))
      | none =>
        rw [findallStatF_cons_none n h, findallStatF_cons_none m2 h]
        simp only [List.length_cons] at hn hm
        exact ih t (by omega) (by omega)

/-- Attempt `(\w+(?: \w+)*)\s{2,}(\d+)\s{2,}(\d+)` at the start of `s`. -/
def matchStatRow2 (s : PyStr) : Option ((PyStr × PyStr × PyStr) × PyStr) :=
  if (s.takeWhile isWordChar).isEmpty then none
  else
    if ((wordSeqExt (s.dropWhile isWordChar)).2.takeWhile isSpaceChar).length < 2 then none
    else
      if (((wordSeqExt (s.dropWhile isWordChar)).2.dropWhile
          isSpaceChar).takeWhile isDigitChar).isEmpty then none
      else
        if ((((wordSeqExt (s.dropWhile isWordChar)).2.dropWhile isSpaceChar).dropWhile
            isDigitChar).takeWhile isSpaceChar).length < 2 then none
        else
          if (((((wordSeqExt (s.dropWhile isWordChar)).2.dropWhile isSpaceChar).dropWhile
              isDigitChar).dropWhile isSpaceChar).takeWhile isDigitChar).isEmpty then none
          else some
            ((s.takeWhile isWordChar ++ (wordSeqExt (s.dropWhile isWordChar)).1,
              ((wordSeqExt (s.dropWhile isWordChar)).2.dropWhile isSpaceChar).takeWhile
                isDigitChar,
              (((((wordSeqExt (s.dropWhile isWordChar)).2.dropWhile isSpaceChar).dropWhile
                isDigitChar).dropWhile isSpaceChar).takeWhile isDigitChar)),
            ((((wordSeqExt (s.dropWhile isWordChar)).2.dropWhile isSpaceChar).dropWhile
              isDigitChar).dropWhile isSpaceChar).dropWhile isDigitChar)

theorem matchStatRow2_rest_lt {s : PyStr} {g : PyStr × PyStr × PyStr} {rest : PyStr}
    (h : matchStatRow2 s = some (g, rest)) : rest.length < s.length := by
  unfold matchStatRow2 at h
  split at h
  · simp at h
  · next hw =>
    split at h
    · simp at h
    · split at h
      · simp at h
      · split at h
        · simp at h
        · split at h
          · simp at h
          · simp only [Option.some.injEq, Prod.mk.injEq] at h
            obtain ⟨-, hrest⟩ := h
            calc rest.length
                ≤ _ := hrest ▸ length_dropWhile_le isDigitChar _
              _ ≤ _ := length_dropWhile_le isSpaceChar _
              _ ≤ _ := length_dropWhile_le isDigitChar _
              _ ≤ (wordSeqExt (s.dropWhile isWordChar)).2.length :=
                  length_dropWhile_le isSpaceChar _
              _ ≤ (s.dropWhile isWordChar).length := wordSeqExt_snd_le _
              _ < s.length := length_dropWhile_lt hw

/-- The scanning loop of
`re.findall(r"(\w+(?: \w+)*)\s{2,}(\d+)\s{2,}(\d+)", s)`. -/
def findallStat2F : Nat → PyStr → List (PyStr × PyStr × PyStr)
  | 0, _ => []
  | fuel + 1, s =>
    match s with
    | [] => []
    | c :: t =>
      match matchStatRow2 (c :: t) with
      | some (g, rest) => g :: findallStat2F fuel rest
      | none => findallStat2F fuel t

/-- `re.findall(r"(\w+(?: \w+)*)\s{2,}(\d+)\s{2,}(\d+)", s)`. -/
def findallStat2 (s : PyStr) : List (PyStr × PyStr × PyStr) := findallStat2F s.length s

/-! ## The statistics parsers -/

/-- A row of a single-counter statistics table (`columns=["Header", "Value"]`). -/
structure StatRow where
  header : String
  value : Int
deriving DecidableEq, Repr

/-- A row of a dual-counter statistics table
(`columns=["Header", "Received", "Sent"]`). -/
structure StatRow2 where
  header : String
  received : Int
  sent : Int
deriving DecidableEq, Repr

/-- Generic body shared by the eight labelled single-counter statistics
parsers (`read_tcp_ipv4_statistics`, `read_tcp_ipv6_statistics`,
`read_udp_ipv4_statistics`, `read_udp_ipv6_statistics`,
`read_ipv4_statistics`, `read_ipv6_statistics`): search for the labelled
section, extract `Header = Value` rows with the captured digits converted by
`int`, and raise `NetstatOutputError(msg)` when the section is absent. -/
def readStatisticsTable (label : PyStr) (msg : String) (cmd_output : PyStr) :
    Except PyErr (List StatRow) :=
  match findSection label cmd_output with
  | some block =>
    .ok ((findallStat block).map fun g => ⟨String.mk g.1, pyInt g.2⟩)
  | none => .error (.netstatOutput msg)

/-- Generic body shared by the two dual-counter statistics parsers
(`read_icmpv4_statistics`, `read_icmpv6_statistics`). -/
def readStatistics2Table (label : PyStr) (msg : String) (cmd_output : PyStr) :
    Except PyErr (List StatRow2) :=
  match findSection label cmd_output with
  | some block =>
    .ok ((findallStat2 block).map fun g => ⟨String.mk g.1, pyInt g.2.1, pyInt g.2.2⟩)
  | none => .error (.netstatOutput msg)

/-- `read_tcp_ipv4_statistics` (netstat/__init__.py lines 49-78). -/
def read_tcp_ipv4_statistics : PyStr → Except PyErr (List StatRow) :=
  readStatisticsTable "TCP Statistics for IPv4".toList
    "No TCP statistics for IPv4 found in the cmd_output."

/-- `read_tcp_ipv6_statistics` (lines 16-46). -/
def read_tcp_ipv6_statistics : PyStr → Except PyErr (List StatRow) :=
  readStatisticsTable "TCP Statistics for IPv6".toList
    "No TCP statistics for IPv6 found in the cmd_output."

/-- `read_udp_ipv4_statistics` (lines 113-142). -/
def read_udp_ipv4_statistics : PyStr → Except PyErr (List StatRow) :=
  readStatisticsTable "UDP Statistics for IPv4".toList
    "No UDP statistics for IPv4 found in the cmd_output."

/-- `read_udp_ipv6_statistics` (lines 81-110). -/
def read_udp_ipv6_statistics : PyStr → Except PyErr (List StatRow) :=
  readStatisticsTable "UDP Statistics for IPv6".toList
    "No UDP statistics for IPv6 found in the cmd_output."

/-- `read_ipv4_statistics` (lines 237-264). -/
def read_ipv4_statistics : PyStr → Except PyErr (List StatRow) :=
  readStatisticsTable "IPv4 Statistics".toList
    "No IPv4 statistics found in the cmd_output."

/-- `read_ipv6_statistics` (lines 207-234). -/
def read_ipv6_statistics : PyStr → Except PyErr (List StatRow) :=
  readStatisticsTable "IPv6 Statistics".toList
    "No IPv6 statistics found in the cmd_output."

/-- `read_icmpv4_statistics` (lines 176-204). -/
def read_icmpv4_statistics : PyStr → Except PyErr (List StatRow2) :=
  readStatistics2Table "ICMPv4 Statistics".toList
    "No ICMPv4 statistics found in the cmd_output."

/-- `read_icmpv6_statistics` (lines 145-173). -/
def read_icmpv6_statistics : PyStr → Except PyErr (List StatRow2) :=
  readStatistics2Table "ICMPv6 Statistics".toList
    "No ICMPv6 statistics found in the cmd_output."

/-! ## `read_ethernet_statistics`

`read_ethernet_statistics` (lines 753-774) performs **no** section search: it
runs `re.findall(r"([\w-]+(?: [\w-]+)*)\s{2,}(\d+)\s{2,}(\d*)", cmd_output)`
directly on the whole output and always returns a (possibly empty)
DataFrame; the third capture may be empty (`\d*`), in which case `Sent`
becomes `0`. -/

/-- The greedy iteration `(?: [\w-]+)*` of the ethernet pattern (fuel-bounded
exactly like `wordSeqExtF`). -/
def wordDashSeqExtF : Nat → PyStr → PyStr × PyStr
  | 0, s => ([], s)
  | fuel + 1, ' ' :: rest =>
    if (rest.takeWhile isWordDashChar).isEmpty then ([], ' ' :: rest)
    else
      (' ' :: rest.takeWhile isWordDashChar ++
          (wordDashSeqExtF fuel (rest.dropWhile isWordDashChar)).1,
        (wordDashSeqExtF fuel (rest.dropWhile isWordDashChar)).2)
  | _ + 1, s => ([], s)

/-- `(?: [\w-]+)*` at the start of `s`. -/
def wordDashSeqExt (s : PyStr) : PyStr × PyStr := wordDashSeqExtF s.length s

theorem wordDashSeqExtF_snd_le (n : Nat) (s : PyStr) :
    (wordDashSeqExtF n s).2.length ≤ s.length := by
  induction n generalizing s with
  | zero => exact le_rfl
  | succ n ih =>
    match s with
    | [] => exact le_rfl
    | c :: t =>
      by_cases hc : c = ' '
      · subst hc
        rw [wordDashSeqExtF]
        split
        · exact le_rfl
        · exact le_trans (ih _) (le_trans (length_dropWhile_le _ _) (Nat.le_succ _))
      · rw [wordDashSeqExtF.eq_def]
        split
        · rfl
        · next heq => exact absurd (List.cons.injEq .. ▸ heq).1 hc
        · exact le_rfl

theorem wordDashSeqExt_snd_le (s : PyStr) : (wordDashSeqExt s).2.length ≤ s.length :=
  wordDashSeqExtF_snd_le s.length s

/-- Attempt `([\w-]+(?: [\w-]+)*)\s{2,}(\d+)\s{2,}(\d*)` at the start of
`s`; the third capture may be empty. -/
def matchEthernetRow (s : PyStr) : Option ((PyStr × PyStr × PyStr) × PyStr) :=
  if (s.takeWhile isWordDashChar).isEmpty then none
  else
    if ((wordDashSeqExt (s.dropWhile isWordDashChar)).2.takeWhile isSpaceChar).length < 2 then
      none
    else
      if (((wordDashSeqExt (s.dropWhile isWordDashChar)).2.dropWhile
          isSpaceChar).takeWhile isDigitChar).isEmpty then none
      else
        if ((((wordDashSeqExt (s.dropWhile isWordDashChar)).2.dropWhile isSpaceChar).dropWhile
            isDigitChar).takeWhile isSpaceChar).length < 2 then none
        else some
          ((s.takeWhile isWordDashChar ++ (wordDashSeqExt (s.dropWhile isWordDashChar)).1,
            ((wordDashSeqExt (s.dropWhile isWordDashChar)).2.dropWhile isSpaceChar).takeWhile
              isDigitChar,
            (((((wordDashSeqExt (s.dropWhile isWordDashChar)).2.dropWhile
              isSpaceChar).dropWhile isDigitChar).dropWhile isSpaceChar).takeWhile
                isDigitChar)),
          ((((wordDashSeqExt (s.dropWhile isWordDashChar)).2.dropWhile isSpaceChar).dropWhile
            isDigitChar).dropWhile isSpaceChar).dropWhile isDigitChar)

theorem matchEthernetRow_rest_lt {s : PyStr} {g : PyStr × PyStr × PyStr} {rest : PyStr}
    (h : matchEthernetRow s = some (g, rest)) : rest.length < s.length := by
  unfold matchEthernetRow at h
  split at h
  · simp at h
  · next hw =>
    split at h
    · simp at h
    · split at h
      · simp at h
      · split at h
        · simp at h
        · simp only [Option.some.injEq, Prod.mk.injEq] at h
          obtain ⟨-, hrest⟩ := h
          calc rest.length
              ≤ _ := hrest ▸ length_dropWhile_le isDigitChar _
            _ ≤ _ := length_dropWhile_le isSpaceChar _
            _ ≤ _ := length_dropWhile_le isDigitChar _
            _ ≤ (wordDashSeqExt (s.dropWhile isWordDashChar)).2.length :=
                length_dropWhile_le isSpaceChar _
            _ ≤ (s.dropWhile isWordDashChar).length := wordDashSeqExt_snd_le _
            _ < s.length := length_dropWhile_lt hw

/-- The scanning loop of
`re.findall(r"([\w-]+(?: [\w-]+)*)\s{2,}(\d+)\s{2,}(\d*)", s)`. -/
def findallEthernetF : Nat → PyStr → List (PyStr × PyStr × PyStr)
  | 0, _ => []
  | fuel + 1, s =>
    match s with
    | [] => []
    | c :: t =>
      match matchEthernetRow (c :: t) with
      | some (g, rest) => g :: findallEthernetF fuel rest
      | none => findallEthernetF fuel t

/-- `re.findall(r"([\w-]+(?: [\w-]+)*)\s{2,}(\d+)\s{2,}(\d*)", s)`. -/
def findallEthernet (s : PyStr) : List (PyStr × PyStr × PyStr) :=
  findallEthernetF s.length s

/-- A row of the ethernet statistics table
(`columns=["Interface", "Received", "Sent"]`). -/
structure EthernetRow where
  interface : String
  received : Int
  sent : Int
deriving DecidableEq, Repr

/-- `read_ethernet_statistics` (lines 753-774): no section anchor, no
failure path; `Sent` is `int(text)` when the third capture is non-empty and
`0` otherwise. -/
def read_ethernet_statistics (cmd_output : PyStr) : Except PyErr (List EthernetRow) :=
  .ok ((findallEthernet cmd_output).map fun g =>
    ⟨String.mk g.1, pyInt g.2.1, if g.2.2.isEmpty then 0 else pyInt g.2.2⟩)

/-! ## A backtracking regex engine for the connection-list parser

`read_netstat_connections_list` (lines 548-596) assembles its row pattern
dynamically from the discovered header tokens, so its pattern is embedded
via a small backtracking engine with Python `re` semantics: ordered
alternation, greedy repetition with backtracking, leftmost match, numbered
captures (a group's last successful capture on the surviving path wins, and
an unmatched group reads as the empty string).  `close` is an internal
continuation marker: `close i start` records capture `i` as the characters
consumed since `start`.  Every starred or lazily starred sub-pattern below
is a character class or a non-empty literal, which always consumes at least
one character when it matches, so the unfolding of `star` and `lazyStar`
terminates on its own (Python's zero-width-repetition guard is never
exercised by these patterns). -/
inductive RE where
  | eps
  | lit (c : Char)
  | cls (p : Char → Bool)
  | seq (a b : RE)
  | alt (a b : RE)
  | star (a : RE)
  | group (idx : Nat) (a : RE)
  | close (idx : Nat) (start : PyStr)
  | lazyStar (a : RE)
  | eos

/-- Literal word: sequence of character literals. -/
def RE.lits (w : PyStr) : RE :=
  w.foldr (fun c r => .seq (.lit c) r) .eps

/-- `x+` (greedy). -/
def RE.plus (a : RE) : RE := .seq a (.star a)

/-- `x?` (greedy). -/
def RE.opt (a : RE) : RE := .alt a .eps

/-- `x{1,3}` (greedy): one to three repetitions, longest first. -/
def RE.rep13 (a : RE) : RE := .seq a (.opt (.seq a (.opt a)))

/-- `x{1,5}` (greedy). -/
def RE.rep15 (a : RE) : RE :=
  .seq a (.opt (.seq a (.opt (.seq a (.opt (.seq a (.opt a)))))))

/-- `x{3,}` (greedy): three repetitions then a greedy star. -/
def RE.rep3plus (a : RE) : RE := .seq a (.seq a (.seq a (.star a)))

/-- The `re.DOTALL` dot: any character, line breaks included. -/
def anyChar : RE := .cls (fun _ => true)

/-- `.+?` under `re.DOTALL`: lazy one-or-more of any character. -/
def lazyDotPlus : RE := .seq anyChar (.lazyStar anyChar)

/-- Capture lookup: a group's most recent capture, `""` when unset. -/
def capGet (caps : List (Nat × PyStr)) (i : Nat) : PyStr :=
  ((caps.find? (fun p => p.1 == i)).map (fun p => p.2)).getD []

/-- The backtracking matcher: match the sequence `k` of regexes against `s`
with capture environment `caps`; `fuel` bounds the recursion depth (it is
chosen generously enough below never to be exhausted on the inputs
considered). -/
def mseq : Nat → List RE → PyStr → List (Nat × PyStr) →
    Option (PyStr × List (Nat × PyStr))
  | 0, _, _, _ => none
  | _ + 1, [], s, caps => some (s, caps)
  | fuel + 1, r :: k, s, caps =>
    match r with
    | .eps => mseq fuel k s caps
    | .lit c =>
      match s with
      | c' :: t => if c' = c then mseq fuel k t caps else none
      | [] => none
    | .cls p =>
      match s with
      | c' :: t => if p c' then mseq fuel k t caps else none
      | [] => none
    | .seq a b => mseq fuel (a :: b :: k) s caps
    | .alt a b =>
      match mseq fuel (a :: k) s caps with
      | some res => some res
      | none => mseq fuel (b :: k) s caps
    | .star a =>
      match mseq fuel (a :: .star a :: k) s caps with
      | some res => some res
      | none => mseq fuel k s caps
    | .lazyStar a =>
      match mseq fuel k s caps with
      | some res => some res
      | none => mseq fuel (a :: .lazyStar a :: k) s caps
    | .eos =>
      match s with
      | [] => mseq fuel k s caps
      | _ :: _ => none
    | .group i a => mseq fuel (a :: .close i s :: k) s caps
    | .close i start =>
      mseq fuel k s ((i, start.take (start.length - s.length)) :: caps)

/-- Fuel bound for `mseq`: it limits only the depth of one backtracking
path, which for the patterns of this development stays far below this. -/
def mseqFuel (_s : PyStr) : Nat := 100000

/-- The scanning loop of `re.findall`: attempt the pattern at each position,
emit the tuple of captures of groups `1..ng` at each match, resume after the
matched text (advancing one character after a zero-width match, as Python
does). -/
def reFindScan : Nat → RE → Nat → PyStr → List (List PyStr)
  | 0, _, _, _ => []
  | fuel + 1, r, ng, s =>
    match mseq (mseqFuel s) [r] s [] with
    | some (rest, caps) =>
      let tuple := (List.range ng).map (fun i => capGet caps (i + 1))
      if rest.length < s.length then tuple :: reFindScan fuel r ng rest
      else
        match s with
        | [] => [tuple]
        | _ :: t => tuple :: reFindScan fuel r ng t
    | none =>
      match s with
      | [] => []
      | _ :: t => reFindScan fuel r ng t

/-- `re.findall(r, s)` for a pattern with `ng` capture groups: the list of
capture tuples of the non-overlapping leftmost matches. -/
def reFindall (r : RE) (ng : Nat) (s : PyStr) : List (List PyStr) :=
  reFindScan (s.length + 1) r ng s

/-- The scanning loop of `re.search`: attempt the pattern at each position
left to right and return the capture tuple of groups `1..ng` of the first
(leftmost) match, `none` when no position matches. -/
def reSearchScan : Nat → RE → Nat → PyStr → Option (List PyStr)
  | 0, _, _, _ => none
  | fuel + 1, r, ng, s =>
    match mseq (mseqFuel s) [r] s [] with
    | some (_, caps) => some ((List.range ng).map (fun i => capGet caps (i + 1)))
    | none =>
      match s with
      | [] => none
      | _ :: t => reSearchScan fuel r ng t

/-- `re.search(r, s)` for a pattern with `ng` capture groups. -/
def reSearch (r : RE) (ng : Nat) (s : PyStr) : Option (List PyStr) :=
  reSearchScan (s.length + 1) r ng s

/-! ## `read_netstat_connections_list` -/

/-- ASCII model of the line boundaries recognised by Python
`str.splitlines` (`\n`, `\r`, `\r\n`, `\v`, `\f`, the ASCII separators
`\x1c`-`\x1e` and NEL `\x85`). -/
def isLineBreak (c : Char) : Bool :=
  c = '\n' || c = '\r' || c = '\x0b' || c = '\x0c' ||
    c = '\x1c' || c = '\x1d' || c = '\x1e' || c = '\x85'

/-- Model of Python `str.splitlines()`: split at line boundaries, treating
`"\r\n"` as a single boundary; a trailing boundary produces no empty final
line. -/
def pySplitlinesF : Nat → PyStr → List PyStr
  | 0, _ => []
  | fuel + 1, s =>
    if s.isEmpty then []
    else
      match s.dropWhile (fun x => !isLineBreak x) with
      | [] => [s.takeWhile (fun x => !isLineBreak x)]
      | '\r' :: '\n' :: t => s.takeWhile (fun x => !isLineBreak x) :: pySplitlinesF fuel t
      | _ :: t => s.takeWhile (fun x => !isLineBreak x) :: pySplitlinesF fuel t

/-- `s.splitlines()`; every step past a line consumes at least the line
break, so fuel `s.length` is never exhausted. -/
def pySplitlines (s : PyStr) : List PyStr := pySplitlinesF s.length s

/-- Model of the regex class `[\w.]` of the executable continuation line. -/
def isWordDotChar (c : Char) : Bool := isWordChar c || c = '.'

/-- The header-token pattern `(\w+(?: \(?\w+\)?)*)` of line 563. -/
def headerTokenRE : RE :=
  .group 1 (.seq (.plus (.cls isWordChar))
    (.star (.seq (.lit ' ') (.seq (.opt (.lit '('))
      (.seq (.plus (.cls isWordChar)) (.opt (.lit ')')))))))

/-- The sub-pattern `\d{1,3}\.\d{1,3}\.\d{1,3}\.\d{1,3}` (an IPv4 literal). -/
def ipv4RE : RE :=
  .seq (.rep13 (.cls isDigitChar)) (.seq (.lit '.')
    (.seq (.rep13 (.cls isDigitChar)) (.seq (.lit '.')
      (.seq (.rep13 (.cls isDigitChar)) (.seq (.lit '.')
        (.rep13 (.cls isDigitChar)))))))

/-- The per-column sub-pattern table of lines 567-583 (without its capture
group): `Proto`, `Local Address`, `Foreign Address`, `State`, `PID`,
`Time in State (ms)`, `Offload State` and `Template` map to their
sub-patterns; any other header token contributes nothing. -/
def knownColumnRE (h : String) : Option RE :=
  if h = "Proto" then
    some (.alt (.lits "TCP".toList) (.alt (.lits "UDP".toList)
      (.alt (.lits "TCPv6".toList) (.lits "UDPv6".toList))))
  else if h = "Local Address" then
    some (.seq (.alt ipv4RE (.lits "[::]".toList))
      (.seq (.lit ':') (.rep15 (.cls isDigitChar))))
  else if h = "Foreign Address" then
    some (.seq (.alt ipv4RE (.alt (.lits "[::]".toList) (.lits "*:*".toList)))
      (.seq (.lit ':') (.rep15 (.cls isDigitChar))))
  else if h = "State" then
    some (.alt (.lits "LISTENING".toList) (.alt (.lits "ESTABLISHED".toList)
      (.alt (.lits "CLOSE_WAIT".toList) (.alt (.lits "TIME_WAIT".toList)
        (.alt (.lits "FIN_WAIT1".toList) (.alt (.lits "FIN_WAIT2".toList)
          (.alt (.lits "BOUND".toList) .eps)))))))
  else if h = "PID" then some (.plus (.cls isDigitChar))
  else if h = "Time in State (ms)" then some (.plus (.cls isDigitChar))
  else if h = "Offload State" then some (.alt (.lits "InHost".toList) .eps)
  else if h = "Template" then
    some (.alt (.lits "Not Applicable".toList) (.lits "Internet".toList))
  else none

/-- `r"\s+".join(regex_line)` as a regex over the indexed column groups. -/
def joinColumnREs : List RE → RE
  | [] => .eps
  | [r] => r
  | r :: rest => .seq r (.seq (.plus (.cls isSpaceChar)) (joinColumnREs rest))

/-- The assembled row pattern of line 586:
`"\s+".join(regex_line) + r"(?:\n\s*(\w+))?(?:\n\s*\[([\w.]+)])?\n"` with the
column captures numbered `1..n` and the component/executable captures
`n+1`/`n+2`. -/
def connectionRowRE (cols : List RE) : RE :=
  let n := cols.length
  .seq (joinColumnREs (cols.enum.map (fun p => RE.group (p.1 + 1) p.2)))
    (.seq (.opt (.seq (.lit '\n') (.seq (.star (.cls isSpaceChar))
        (.group (n + 1) (.plus (.cls isWordChar))))))
      (.seq (.opt (.seq (.lit '\n') (.seq (.star (.cls isSpaceChar))
          (.seq (.lit '[') (.seq (.group (n + 2) (.plus (.cls isWordDotChar)))
            (.lit ']'))))))
        (.lit '\n')))

/-- The connection table: a pandas DataFrame modelled as its column labels
and its rows of strings. -/
structure ConnTable where
  columns : List String
  rows : List (List String)
deriving DecidableEq, Repr

/-- `read_netstat_connections_list` (lines 548-596).

The non-empty lines are collected; `lines[1]` (an `IndexError` when fewer
than two non-empty lines exist — the function checks no section label) is
scanned for header tokens; the row pattern is assembled from the known
tokens and run over `"\n".join(lines[2:])`; the DataFrame gets the columns
`headers + ["Component", "Executable"]` (a `ValueError` if some row tuple
width differs from the column count, which pandas raises only when there is
at least one row); finally the `Component` and then the `Executable` column
is dropped when every row has the empty string there (vacuously including
the zero-row frame). -/
def read_netstat_connections_list (cmd_output : PyStr) : Except PyErr ConnTable :=
  match (pySplitlines cmd_output).filter (fun l => !l.isEmpty) with
  | _ :: headerLine :: dataLines =>
    let headers := (reFindall headerTokenRE 1 headerLine).map
      (fun g => String.mk (g.headD []))
    let colREs := headers.filterMap knownColumnRE
    let n := colREs.length
    let text := List.intercalate ['\n'] dataLines
    let tuples := reFindall (connectionRowRE colREs) (n + 2) text
    let columns := headers ++ ["Component", "Executable"]
    if tuples ≠ [] ∧ n + 2 ≠ columns.length then
      .error (.valueError "DataFrame constructor: columns length mismatch")
    else
      let rows := tuples.map (fun t => t.map String.mk)
      let compPos := columns.length - 2
      let exePos := columns.length - 1
      let dropC := rows.all (fun t => t.getD compPos "" = "")
      let dropE := rows.all (fun t => t.getD exePos "" = "")
      let cols1 := if dropC then columns.eraseIdx compPos else columns
      let rows1 := if dropC then rows.map (fun t => t.eraseIdx compPos) else rows
      let exePos1 := if dropC then exePos - 1 else exePos
      let cols2 := if dropE then cols1.eraseIdx exePos1 else cols1
      let rows2 := if dropE then rows1.map (fun t => t.eraseIdx exePos1) else rows1
      .ok ⟨cols2, rows2⟩
  | _ => .error .indexError

/-! ## The routing-table parsers (lines 343-448)

`read_ipv6_routing_table`, `read_ipv4_routing_table` and
`read_interface_routing_table` each anchor on a `re.search` with `re.DOTALL`
whose pattern begins with the literal section label, then apply `re.findall`
row patterns to the captured blocks.  The DataFrames are modelled as their
row tuples; the IPv6 persistent table is the always-empty DataFrame of the
source. -/

/-- The search pattern of lines 361 and 399, parameterised by the literal
route-table label:
`label(?:\r\n)+={3,}\s+Active Routes:(?:\r\n)+(.+?)(?:={3,}|\Z)\s+Persistent Routes:(?:\r\n)+(.+?)(?:={3,}|\Z)`. -/
def routeTableRE (label : String) : RE :=
  .seq (.lits label.toList)
    (.seq (.plus (.lits ['\r', '\n']))
      (.seq (.rep3plus (.lit '='))
        (.seq (.plus (.cls isSpaceChar))
          (.seq (.lits "Active Routes:".toList)
            (.seq (.plus (.lits ['\r', '\n']))
              (.seq (.group 1 lazyDotPlus)
                (.seq (.alt (.rep3plus (.lit '=')) .eos)
                  (.seq (.plus (.cls isSpaceChar))
                    (.seq (.lits "Persistent Routes:".toList)
                      (.seq (.plus (.lits ['\r', '\n']))
                        (.seq (.group 2 lazyDotPlus)
                          (.alt (.rep3plus (.lit '=')) .eos))))))))))))

/-- The IPv6 active-route row pattern
`(\d+)\s+(\d+)\s+(\S+)\s+(On-link)\s+` of line 367. -/
def ipv6ActiveRouteRE : RE :=
  .seq (.group 1 (.plus (.cls isDigitChar)))
    (.seq (.plus (.cls isSpaceChar))
      (.seq (.group 2 (.plus (.cls isDigitChar)))
        (.seq (.plus (.cls isSpaceChar))
          (.seq (.group 3 (.plus (.cls (fun c => !isSpaceChar c))))
            (.seq (.plus (.cls isSpaceChar))
              (.seq (.group 4 (.lits "On-link".toList))
                (.plus (.cls isSpaceChar))))))))

/-- `read_ipv6_routing_table` (lines 343-376): the active IPv6 routes (rows
of `If`, `Metric`, `Network Destination`, `Gateway`) paired with the
always-empty persistent table, or `NetstatOutputError` when the search
finds no IPv6 route table. -/
def read_ipv6_routing_table (cmd_output : PyStr) :
    Except PyErr (List (List String) × List (List String)) :=
  match reSearch (routeTableRE "IPv6 Route Table") 2 cmd_output with
  | some caps =>
    .ok ((reFindall ipv6ActiveRouteRE 4 (caps.getD 0 [])).map
      (fun t => t.map String.mk), [])
  | none => .error (.netstatOutput "No IPv6 routing table found in the cmd_output.")

/-- The IPv4 active-route row pattern of line 405:
`(ip)\s+(ip)\s+(ip|On-link)\s+(ip)\s+(\d+)\s+` with `ip` the dotted-quad
sub-pattern `\d{1,3}\.\d{1,3}\.\d{1,3}\.\d{1,3}`. -/
def ipv4ActiveRouteRE : RE :=
  .seq (.group 1 ipv4RE)
    (.seq (.plus (.cls isSpaceChar))
      (.seq (.group 2 ipv4RE)
        (.seq (.plus (.cls isSpaceChar))
          (.seq (.group 3 (.alt ipv4RE (.lits "On-link".toList)))
            (.seq (.plus (.cls isSpaceChar))
              (.seq (.group 4 ipv4RE)
                (.seq (.plus (.cls isSpaceChar))
                  (.seq (.group 5 (.plus (.cls isDigitChar)))
                    (.plus (.cls isSpaceChar))))))))))

/-- The IPv4 persistent-route row pattern of line 409:
`(ip)\s+(ip)\s+(ip)\s+(\d+)\s+`. -/
def ipv4PersistentRouteRE : RE :=
  .seq (.group 1 ipv4RE)
    (.seq (.plus (.cls isSpaceChar))
      (.seq (.group 2 ipv4RE)
        (.seq (.plus (.cls isSpaceChar))
          (.seq (.group 3 ipv4RE)
            (.seq (.plus (.cls isSpaceChar))
              (.seq (.group 4 (.plus (.cls isDigitChar)))
                (.plus (.cls isSpaceChar))))))))

/-- `read_ipv4_routing_table` (lines 379-425): the active routes (rows of
`Network Destination`, `Netmask`, `Gateway`, `Interface`, `Metric`) paired
with the persistent routes (rows of `Network Address`, `Netmask`,
`Gateway Address`, `Metric`), or `NetstatOutputError` when the search finds
no IPv4 route table. -/
def read_ipv4_routing_table (cmd_output : PyStr) :
    Except PyErr (List (List String) × List (List String)) :=
  match reSearch (routeTableRE "IPv4 Route Table") 2 cmd_output with
  | some caps =>
    .ok ((reFindall ipv4ActiveRouteRE 5 (caps.getD 0 [])).map
      (fun t => t.map String.mk),
      (reFindall ipv4PersistentRouteRE 4 (caps.getD 1 [])).map
        (fun t => t.map String.mk))
  | none => .error (.netstatOutput "No IPv4 routing table found in the cmd_output.")

/-- The search pattern `Interface List(?:\r\n)+(.+?)(?:={3,}|\Z)` of
line 442. -/
def interfaceTableRE : RE :=
  .seq (.lits "Interface List".toList)
    (.seq (.plus (.lits ['\r', '\n']))
      (.seq (.group 1 lazyDotPlus)
        (.alt (.rep3plus (.lit '=')) .eos)))

/-- The character class `[\w#() -]` of the interface-row pattern. -/
def isIfaceNameChar (c : Char) : Bool :=
  isWordChar c || c = '#' || c = '(' || c = ')' || c = ' ' || c = '-'

/-- The interface-row pattern
`(\w+(?:(?:\.{3}| )\w+)*) \.+([\w#() -]+)\s+` of line 445. -/
def interfaceRowRE : RE :=
  .seq (.group 1 (.seq (.plus (.cls isWordChar))
      (.star (.seq (.alt (.lits "...".toList) (.lit ' '))
        (.plus (.cls isWordChar))))))
    (.seq (.lit ' ')
      (.seq (.plus (.lit '.'))
        (.seq (.group 2 (.plus (.cls isIfaceNameChar)))
          (.plus (.cls isSpaceChar)))))

/-- `read_interface_routing_table` (lines 428-448): the interface rows
(`MAC`, `Interface`), or `NetstatOutputError` when the search finds no
Interface List. -/
def read_interface_routing_table (cmd_output : PyStr) :
    Except PyErr (List (List String)) :=
  match reSearch interfaceTableRE 1 cmd_output with
  | some caps =>
    .ok ((reFindall interfaceRowRE 2 (caps.getD 0 [])).map
      (fun t => t.map String.mk))
  | none => .error (.netstatOutput "No Interface List found in the cmd_output.")

/-! ## Derived port queries (lines 679-750)

The busy-port list is the result of one external `netstat` invocation
followed by parsing; the derived queries below are modelled as functions of
that parsed busy-port list, with the external invocation recorded as an
explicit event so that the order between process invocation and validation
is part of the model. -/

/-- An external process invocation performed through `Popen`. -/
inductive NetstatEvent where
  | invocation
deriving DecidableEq, Repr

/-- `get_localhost_free_ports` (lines 704-715) as a function of the busy
ports: `list(set(range(1024, 49151)) - set(busy_ports))`, i.e. the set
difference of the integer range `1024..49150` and the busy ports. -/
def get_localhost_free_ports_set (busyPorts : List Int) : Finset Int :=
  (Finset.Icc (1024 : Int) 49150).filter (fun p => p ∉ busyPorts)

/-- Python `min` over a collection of ints: a `ValueError` on an empty
collection, otherwise the least element. -/
def pyMinSet (s : Finset Int) : Except PyErr Int :=
  if h : s.Nonempty then .ok (s.min' h)
  else .error (.valueError "min() arg is an empty sequence")

/-- A Python value passed inside `ports_to_check` collections. -/
inductive PyVal where
  | int (n : Int)
  | str (s : String)
deriving DecidableEq, Repr

/-- Model of `isinstance(v, int)`. -/
def PyVal.isInt : PyVal → Bool
  | .int _ => true
  | _ => false

/-- The `ports_to_check` argument of `get_localhost_minimum_free_port`:
`None`, a single int, or a list/set of Python values. -/
inductive PortsArg where
  | noneArg
  | intArg (n : Int)
  | listArg (l : List PyVal)
deriving DecidableEq, Repr

/-- The body of `get_localhost_minimum_free_port` after the free ports have
been computed (lines 741-750): a single int candidate is returned when free,
otherwise the minimum free port; a collection first validates that every
member is an int (`ValueError("All ports must be int.")` otherwise), then
returns the minimum of the intersection with the free ports when it is
non-empty and the minimum free port otherwise; `None` returns the minimum
free port. -/
def get_localhost_minimum_free_port_logic (free : Finset Int) (arg : PortsArg) :
    Except PyErr Int :=
  match arg with
  | .intArg n => if n ∈ free then .ok n else pyMinSet free
  | .listArg l =>
    if l.all PyVal.isInt then
      let found := free.filter (fun p => PyVal.int p ∈ l)
      if found = ∅ then pyMinSet free else pyMinSet found
    else .error (.valueError "All ports must be int.")
  | .noneArg => pyMinSet free

/-- `get_localhost_free_ports` with its external invocation recorded: the
call chain `get_localhost_free_ports → get_localhost_busy_ports →
get_netstat_connections_data → Popen` performs exactly one `netstat`
invocation, whose parsed loopback ports are the `busyPorts` argument. -/
def get_localhost_free_ports_traced (busyPorts : List Int) :
    List NetstatEvent × Finset Int :=
  ([.invocation], get_localhost_free_ports_set busyPorts)

/-- `get_localhost_minimum_free_port` (lines 718-750): line 739 first calls
`get_localhost_free_ports()` (performing the external invocation), and only
afterwards inspects and validates `ports_to_check`. -/
def get_localhost_minimum_free_port_traced (busyPorts : List Int) (arg : PortsArg) :
    List NetstatEvent × Except PyErr Int :=
  ((get_localhost_free_ports_traced busyPorts).1,
    get_localhost_minimum_free_port_logic
      (get_localhost_free_ports_traced busyPorts).2 arg)

/-! ## taskkill parameter builders (taskkill/parameters.py)

Each filter class is modelled as a constructor function returning either the
constructed `ProcessFilter` object or the `WrongCommandLineParameter` raised
by its validation; `get_command` renders the `/FI` string of line 38.  The
builders are pure: no external invocation occurs anywhere in
`taskkill/parameters.py`. -/

/-- The base `ProcessFilter` object (lines 6-38). -/
structure ProcessFilter where
  filter_name : String
  filter_operator : String
  filter_value : String
deriving DecidableEq, Repr

/-- `ProcessFilter.get_command` (line 38):
`f"/FI \"{self.filter_name} {self.filter_operator} {self.filter_value}\""`. -/
def ProcessFilter.get_command (f : ProcessFilter) : String :=
  "/FI \"" ++ f.filter_name ++ " " ++ f.filter_operator ++ " " ++ f.filter_value ++ "\""

/-- `WindowTitleProcessFilter.__init__` (lines 51-67). -/
def WindowTitleProcessFilter (operator value : String) : Except PyErr ProcessFilter :=
  if operator ∉ ["eq", "ne"] then
    .error (.wrongCommandLineParameter "operator" operator ["eq", "ne"] "WINDOWTITLE")
  else .ok ⟨"WINDOWTITLE", operator, value⟩

/-- `UsernameProcessFilter.__init__` (lines 80-101): a non-empty domain is
prefixed, backslash-separated, to the username. -/
def UsernameProcessFilter (operator username domain : String) :
    Except PyErr ProcessFilter :=
  if operator ∉ ["eq", "ne"] then
    .error (.wrongCommandLineParameter "operator" operator ["eq", "ne"] "USERNAME")
  else .ok ⟨"USERNAME", operator,
    (if domain ≠ "" then domain ++ "\\" else "") ++ username⟩

/-- `StatusProcessFilter.__init__` (lines 222-243): validates the operator
and additionally the status value. -/
def StatusProcessFilter (operator value : String) : Except PyErr ProcessFilter :=
  if operator ∉ ["eq", "ne"] then
    .error (.wrongCommandLineParameter "operator" operator ["eq", "ne"] "STATUS")
  else if value ∉ ["RUNNING", "NOT RESPONDING", "UNKNOWN"] then
    .error (.wrongCommandLineParameter "value" value
      ["RUNNING", "NOT RESPONDING", "UNKNOWN"] "STATUS")
  else .ok ⟨"STATUS", operator, value⟩

/-- `SessionProcessFilter.__init__` (lines 255-271); `value` is the
`str()`-rendering of the session id. -/
def SessionProcessFilter (operator value : String) : Except PyErr ProcessFilter :=
  if operator ∉ ["eq", "ne", "gt", "lt", "ge", "le"] then
    .error (.wrongCommandLineParameter "operator" operator
      ["eq", "ne", "gt", "lt", "ge", "le"] "SESSION")
  else .ok ⟨"SESSION", operator, value⟩

/-- `ServicesProcessFilter.__init__` (lines 283-299). -/
def ServicesProcessFilter (operator value : String) : Except PyErr ProcessFilter :=
  if operator ∉ ["eq", "ne"] then
    .error (.wrongCommandLineParameter "operator" operator ["eq", "ne"] "SERVICES")
  else .ok ⟨"SERVICES", operator, value⟩

/-- `PIDProcessFilter.__init__` (lines 336-352).  The filter name in its
error message is `IMAGENAME`, exactly as in the source (line 349), although
the constructed filter is named `PID`. -/
def PIDProcessFilter (operator value : String) : Except PyErr ProcessFilter :=
  if operator ∉ ["eq", "ne", "gt", "lt", "ge", "le"] then
    .error (.wrongCommandLineParameter "operator" operator
      ["eq", "ne", "gt", "lt", "ge", "le"] "IMAGENAME")
  else .ok ⟨"PID", operator, value⟩

/-- `ModulesProcessFilter.__init__` (lines 365-381). -/
def ModulesProcessFilter (operator value : String) : Except PyErr ProcessFilter :=
  if operator ∉ ["eq", "ne"] then
    .error (.wrongCommandLineParameter "operator" operator ["eq", "ne"] "MODULES")
  else .ok ⟨"MODULES", operator, value⟩

/-- `MemoryUsageProcessFilter.__init__` (lines 393-409). -/
def MemoryUsageProcessFilter (operator value : String) : Except PyErr ProcessFilter :=
  if operator ∉ ["eq", "ne", "gt", "lt", "ge", "le"] then
    .error (.wrongCommandLineParameter "operator" operator
      ["eq", "ne", "gt", "lt", "ge", "le"] "MEMUSAGE")
  else .ok ⟨"MEMUSAGE", operator, value⟩

/-- `ImageNameProcessFilter.__init__` (lines 421-437). -/
def ImageNameProcessFilter (operator value : String) : Except PyErr ProcessFilter :=
  if operator ∉ ["eq", "ne"] then
    .error (.wrongCommandLineParameter "operator" operator ["eq", "ne"] "IMAGENAME")
  else .ok ⟨"IMAGENAME", operator, value⟩

/-- `CPUTimeProcessFilter.__init__` (lines 480-503); the value renders the
three time components colon-separated. -/
def CPUTimeProcessFilter (operator hours minutes seconds : String) :
    Except PyErr ProcessFilter :=
  if operator ∉ ["eq", "ne", "gt", "lt", "ge", "le"] then
    .error (.wrongCommandLineParameter "operator" operator
      ["eq", "ne", "gt", "lt", "ge", "le"] "CPUTIME")
  else .ok ⟨"CPUTIME", operator, hours ++ ":" ++ minutes ++ ":" ++ seconds⟩

/-- `UserContext` (lines 104-151): `password = None` models no password,
`password = some ""` the prompting form, any other `some p` an explicit
password. -/
structure UserContext where
  username : String
  domain : String
  password : Option String
deriving DecidableEq, Repr

/-- `UserContext.get_command` (lines 131-151). -/
def UserContext.get_command (u : UserContext) : String :=
  let domain := if u.domain ≠ "" then u.domain ++ "\\" else ""
  let password :=
    match u.password with
    | none => ""
    | some "" => " /P"
    | some p => " /P " ++ p
  "/U " ++ domain ++ u.username ++ password

end PyWindowsCMD

deriving instance DecidableEq for Except

namespace PyWindowsCMD

/-! ## Claim theorems -/

/-- C6: `get_localhost_free_ports` returns exactly the set-complement of the
busy localhost ports within the inclusive integer range `[1024, 49150]`:
a port is in the result iff it lies in the range and is not busy. -/
theorem claim_C6 (busyPorts : List Int) (p : Int) :
    p ∈ get_localhost_free_ports_set busyPorts ↔
      1024 ≤ p ∧ p ≤ 49150 ∧ p ∉ busyPorts := by
  simp [get_localhost_free_ports_set, Finset.mem_filter, Finset.mem_Icc, and_assoc]

/-- C10: `UserContext.get_command` implements the three-way password
convention: `password = None` gives `/U` with optional `domain\` prefix and
no `/P`; the empty password appends a bare ` /P`; a non-empty password
appends ` /P <password>`; the `domain\` prefix appears exactly when the
domain is non-empty. -/
theorem claim_C10 (username domain p : String) :
    (UserContext.get_command ⟨username, domain, none⟩ =
      "/U " ++ (if domain = "" then "" else domain ++ "\\") ++ username) ∧
    (UserContext.get_command ⟨username, domain, some ""⟩ =
      "/U " ++ (if domain = "" then "" else domain ++ "\\") ++ username ++ " /P") ∧
    (p ≠ "" →
      UserContext.get_command ⟨username, domain, some p⟩ =
        ("/U " ++ (if domain = "" then "" else domain ++ "\\") ++ username ++ " /P ") ++ p) := by
  refine ⟨?_, ?_, fun hp => ?_⟩ <;>
    · by_cases hd : domain = "" <;>
      simp [UserContext.get_command, hd, String.append_assoc] <;>
      first
        | rfl
        | (split <;> simp_all [String.append_assoc])

/-- C10 witness: concrete instantiation of the three password forms. -/
theorem claim_C10_witness :
    UserContext.get_command ⟨"user", "dom", some "pw"⟩ = "/U dom\\user /P pw" := by
  have h := (claim_C10 "user" "dom" "pw").2.2 (by decide)
  simpa using h

/-- C4: `get_localhost_minimum_free_port` returns the smallest free
candidate when some candidate is free, otherwise the smallest free port;
a single int candidate is returned iff free, else the smallest free port;
and on the concrete scenario with free ports `{1030, 1040, 1050}`:
candidates `[1040, 9999]` give `1040`, the single busy candidate `5000`
gives `1030`, and the non-integer candidate list `["a"]` raises
`ValueError`. -/
theorem claim_C4 (free : Finset Int) (hfree : free.Nonempty) (cand : List Int) :
    ((∃ c ∈ cand, c ∈ free) →
      ∃ m, get_localhost_minimum_free_port_logic free (.listArg (cand.map PyVal.int)) =
          .ok m ∧ m ∈ free ∧ m ∈ cand ∧ ∀ x ∈ free, x ∈ cand → m ≤ x) ∧
    ((∀ c ∈ cand, c ∉ free) →
      get_localhost_minimum_free_port_logic free (.listArg (cand.map PyVal.int)) =
        .ok (free.min' hfree)) ∧
    (∀ n : Int, n ∉ free →
      get_localhost_minimum_free_port_logic free (.intArg n) = .ok (free.min' hfree)) ∧
    (∀ n : Int, n ∈ free →
      get_localhost_minimum_free_port_logic free (.intArg n) = .ok n) ∧
    (get_localhost_minimum_free_port_logic {1030, 1040, 1050}
      (.listArg [.int 1040, .int 9999]) = .ok 1040) ∧
    (get_localhost_minimum_free_port_logic {1030, 1040, 1050} (.intArg 5000) = .ok 1030) ∧
    (get_localhost_minimum_free_port_logic {1030, 1040, 1050}
      (.listArg [.str "a"]) = .error (.valueError "All ports must be int.")) := by
  have hall : (cand.map PyVal.int).all PyVal.isInt = true := by
    simp [List.all_eq_true, PyVal.isInt]
  have hmem : ∀ p : Int, (PyVal.int p ∈ cand.map PyVal.int) ↔ p ∈ cand := by
    intro p
    simp [List.mem_map, PyVal.int.injEq]
  refine ⟨?_, ?_, ?_, ?_, by decide, by decide, by decide⟩
  · intro ⟨c, hc, hcf⟩
    have hne : (free.filter (fun p => PyVal.int p ∈ cand.map PyVal.int)).Nonempty :=
      ⟨c, Finset.mem_filter.mpr ⟨hcf, (hmem c).mpr hc⟩⟩
    have hne2 : ¬ (free.filter (fun p => PyVal.int p ∈ cand.map PyVal.int)) = ∅ :=
      Finset.nonempty_iff_ne_empty.mp hne
    refine ⟨(free.filter (fun p => PyVal.int p ∈ cand.map PyVal.int)).min' hne, ?_, ?_, ?_, ?_⟩
    · simp only [get_localhost_minimum_free_port_logic, hall, if_true, if_neg hne2,
        pyMinSet, dif_pos hne]
    · exact (Finset.mem_filter.mp (Finset.min'_mem _ hne)).1
    · exact (hmem _).mp (Finset.mem_filter.mp (Finset.min'_mem _ hne)).2
    · intro x hxf hxc
      exact Finset.min'_le _ _ (Finset.mem_filter.mpr ⟨hxf, (hmem x).mpr hxc⟩)
  · intro hnone
    have hempty : (free.filter (fun p => PyVal.int p ∈ cand.map PyVal.int)) = ∅ := by
      refine Finset.filter_eq_empty_iff.mpr fun {x} hx => ?_
      intro hmemx
      exact hnone x ((hmem x).mp hmemx) hx
    simp only [get_localhost_minimum_free_port_logic, hall, if_true, hempty, if_pos rfl,
      pyMinSet, dif_pos hfree]
  · intro n hn
    simp only [get_localhost_minimum_free_port_logic, if_neg hn, pyMinSet, dif_pos hfree]
  · intro n hn
    simp only [get_localhost_minimum_free_port_logic, if_pos hn]

/-- C4 witness: the concrete scenarios of the claim, obtained from the
theorem at `free = {1030, 1040, 1050}`. -/
theorem claim_C4_witness :
    get_localhost_minimum_free_port_logic {1030, 1040, 1050}
      (.listArg [.int 1040, .int 9999]) = .ok 1040 :=
  (claim_C4 {1030, 1040, 1050} ⟨1030, by decide⟩ []).2.2.2.2.1

/-- C5 counterexample: `get_localhost_minimum_free_port` with the
non-integer candidate list `["a"]` performs the external `netstat`
invocation (the event trace is non-empty) and only then raises the
validation `ValueError` — the validation error is **not** raised before the
external invocation. -/
theorem claim_C5_counterexample :
    get_localhost_minimum_free_port_traced [] (.listArg [.str "a"]) =
      ([.invocation], .error (.valueError "All ports must be int.")) := by
  rfl

/-- C5 (amended): filter-builder validation errors are raised by pure code
that performs no external invocation, but `get_localhost_minimum_free_port`
performs its single `netstat` invocation first and validates
`ports_to_check` only afterwards: on a collection containing a non-integer
the traced run records the invocation and then the `ValueError`. -/
theorem claim_C5 :
    (∀ op v : String, op ∉ ["eq", "ne"] →
      WindowTitleProcessFilter op v =
        .error (.wrongCommandLineParameter "operator" op ["eq", "ne"] "WINDOWTITLE")) ∧
    (∀ (busyPorts : List Int) (l : List PyVal), (∃ v ∈ l, ¬ v.isInt) →
      get_localhost_minimum_free_port_traced busyPorts (.listArg l) =
        ([.invocation], .error (.valueError "All ports must be int."))) := by
  constructor
  · intro op v hop
    simp [WindowTitleProcessFilter, hop]
  · intro busyPorts l ⟨v, hv, hvi⟩
    have hall : l.all PyVal.isInt = false :=
      List.all_eq_false.mpr ⟨v, hv, by simpa using hvi⟩
    simp [get_localhost_minimum_free_port_traced, get_localhost_free_ports_traced,
      get_localhost_minimum_free_port_logic, hall]

/-- C5 witness: the amended claim at a concrete builder call and a concrete
non-integer candidate list. -/
theorem claim_C5_witness :
    WindowTitleProcessFilter "xx" "title" =
      .error (.wrongCommandLineParameter "operator" "xx" ["eq", "ne"] "WINDOWTITLE") ∧
    get_localhost_minimum_free_port_traced [] (.listArg [.str "b"]) =
      ([.invocation], .error (.valueError "All ports must be int.")) :=
  ⟨claim_C5.1 "xx" "title" (by decide),
    claim_C5.2 [] [.str "b"] ⟨.str "b", by simp, by simp [PyVal.isInt]⟩⟩

/-- C7 counterexample: `StatusProcessFilter` constructed with the **allowed**
operator `"eq"` but the status value `"FOO"` does not succeed: it raises
`WrongCommandLineParameter` for the value, refuting the claim that
construction with an allowed operator always succeeds. -/
theorem claim_C7_counterexample :
    StatusProcessFilter "eq" "FOO" =
      .error (.wrongCommandLineParameter "value" "FOO"
        ["RUNNING", "NOT RESPONDING", "UNKNOWN"] "STATUS") := by
  decide

/-- C7 (amended): every filter-style builder rejects an operator outside its
fixed allowed set with a `WrongCommandLineParameter` carrying the invalid
operator and the allowed set (for `PIDProcessFilter` the message cites the
`IMAGENAME` filter, as in the source), and construction with an allowed
operator succeeds and yields the `/FI` filter object — except that
`StatusProcessFilter` additionally validates its value against
`{RUNNING, NOT RESPONDING, UNKNOWN}` and fails on any other value even under
an allowed operator. -/
theorem claim_C7 (op v dom h m sec : String) :
    (op ∉ ["eq", "ne"] →
      WindowTitleProcessFilter op v =
        .error (.wrongCommandLineParameter "operator" op ["eq", "ne"] "WINDOWTITLE") ∧
      UsernameProcessFilter op v dom =
        .error (.wrongCommandLineParameter "operator" op ["eq", "ne"] "USERNAME") ∧
      StatusProcessFilter op v =
        .error (.wrongCommandLineParameter "operator" op ["eq", "ne"] "STATUS") ∧
      ServicesProcessFilter op v =
        .error (.wrongCommandLineParameter "operator" op ["eq", "ne"] "SERVICES") ∧
      ModulesProcessFilter op v =
        .error (.wrongCommandLineParameter "operator" op ["eq", "ne"] "MODULES") ∧
      ImageNameProcessFilter op v =
        .error (.wrongCommandLineParameter "operator" op ["eq", "ne"] "IMAGENAME")) ∧
    (op ∉ ["eq", "ne", "gt", "lt", "ge", "le"] →
      SessionProcessFilter op v =
        .error (.wrongCommandLineParameter "operator" op
          ["eq", "ne", "gt", "lt", "ge", "le"] "SESSION") ∧
      PIDProcessFilter op v =
        .error (.wrongCommandLineParameter "operator" op
          ["eq", "ne", "gt", "lt", "ge", "le"] "IMAGENAME") ∧
      MemoryUsageProcessFilter op v =
        .error (.wrongCommandLineParameter "operator" op
          ["eq", "ne", "gt", "lt", "ge", "le"] "MEMUSAGE") ∧
      CPUTimeProcessFilter op h m sec =
        .error (.wrongCommandLineParameter "operator" op
          ["eq", "ne", "gt", "lt", "ge", "le"] "CPUTIME")) ∧
    (op ∈ ["eq", "ne"] →
      WindowTitleProcessFilter op v = .ok ⟨"WINDOWTITLE", op, v⟩ ∧
      UsernameProcessFilter op v dom =
        .ok ⟨"USERNAME", op, (if dom ≠ "" then dom ++ "\\" else "") ++ v⟩ ∧
      ServicesProcessFilter op v = .ok ⟨"SERVICES", op, v⟩ ∧
      ModulesProcessFilter op v = .ok ⟨"MODULES", op, v⟩ ∧
      ImageNameProcessFilter op v = .ok ⟨"IMAGENAME", op, v⟩ ∧
      (v ∈ ["RUNNING", "NOT RESPONDING", "UNKNOWN"] →
        StatusProcessFilter op v = .ok ⟨"STATUS", op, v⟩)) ∧
    (op ∈ ["eq", "ne", "gt", "lt", "ge", "le"] →
      SessionProcessFilter op v = .ok ⟨"SESSION", op, v⟩ ∧
      PIDProcessFilter op v = .ok ⟨"PID", op, v⟩ ∧
      MemoryUsageProcessFilter op v = .ok ⟨"MEMUSAGE", op, v⟩ ∧
      CPUTimeProcessFilter op h m sec = .ok ⟨"CPUTIME", op, h ++ ":" ++ m ++ ":" ++ sec⟩) ∧
    (∀ f : ProcessFilter, f.get_command =
      "/FI \"" ++ f.filter_name ++ " " ++ f.filter_operator ++ " " ++ f.filter_value ++ "\"") := by
  refine ⟨fun hop => ?_, fun hop => ?_, fun hop => ?_, fun hop => ?_, fun f => rfl⟩
  · simp [WindowTitleProcessFilter, UsernameProcessFilter, StatusProcessFilter,
      ServicesProcessFilter, ModulesProcessFilter, ImageNameProcessFilter, hop]
  · simp [SessionProcessFilter, PIDProcessFilter, MemoryUsageProcessFilter,
      CPUTimeProcessFilter, hop]
  · exact ⟨by simp [WindowTitleProcessFilter, hop], by simp [UsernameProcessFilter, hop],
      by simp [ServicesProcessFilter, hop], by simp [ModulesProcessFilter, hop],
      by simp [ImageNameProcessFilter, hop],
      fun hv => by simp [StatusProcessFilter, hop, hv]⟩
  · simp [SessionProcessFilter, PIDProcessFilter, MemoryUsageProcessFilter,
      CPUTimeProcessFilter, hop]

/-- C7 witness: the amended claim at a rejected operator and an accepted
construction. -/
theorem claim_C7_witness :
    PIDProcessFilter "zz" "10" =
      .error (.wrongCommandLineParameter "operator" "zz"
        ["eq", "ne", "gt", "lt", "ge", "le"] "IMAGENAME") ∧
    WindowTitleProcessFilter "eq" "Untitled" = .ok ⟨"WINDOWTITLE", "eq", "Untitled"⟩ :=
  ⟨((claim_C7 "zz" "10" "" "" "" "").2.1 (by decide)).2.1,
    ((claim_C7 "eq" "Untitled" "" "" "" "").2.2.1 (by decide)).1⟩

/-- C9: an input with fewer than two non-empty lines (the empty string
included) makes `read_netstat_connections_list` fail with the out-of-range
`IndexError` of `lines[1]` — no section-label check precedes the indexing,
so the dedicated `NetstatOutputError` is never raised on such inputs. -/
theorem claim_C9 (s : PyStr)
    (hlen : ((pySplitlines s).filter (fun l => !l.isEmpty)).length < 2) :
    read_netstat_connections_list s = .error .indexError := by
  unfold read_netstat_connections_list
  split
  · next heq =>
    exfalso
    rw [heq] at hlen
    simp only [List.length_cons] at hlen
    omega
  · rfl

/-- C9 witness: the empty string has no non-empty line and yields the
`IndexError`. -/
theorem claim_C9_witness : read_netstat_connections_list [] = .error .indexError :=
  claim_C9 [] (by decide)

theorem findSection_none {label : PyStr} :
    ∀ {s : PyStr}, ¬ label <:+: s → findSection label s = none
  | [], _ => rfl
  | c :: t, h => by
    rw [findSection]
    have hpre : label.isPrefixOf (c :: t) = false := by
      rw [Bool.eq_false_iff]
      intro hp
      exact h (List.isPrefixOf_iff_prefix.mp hp).isInfix
    rw [hpre]
    simp only [Bool.false_eq_true, if_false]
    exact findSection_none (fun hi => h (List.infix_cons hi))

/-- A literal word at the head of the continuation list can only match when
it is a prefix of the remaining input. -/
theorem mseq_lits_isPrefixOf (w : PyStr) :
    ∀ (fuel : Nat) (k : List RE) (s : PyStr) (caps : List (Nat × PyStr))
      (res : PyStr × List (Nat × PyStr)),
      mseq fuel (RE.lits w :: k) s caps = some res → w.isPrefixOf s = true := by
  induction w with
  | nil => intro fuel k s caps res _; cases s <;> rfl
  | cons c t ih =>
    intro fuel k s caps res h
    cases fuel with
    | zero => simp [mseq] at h
    | succ fuel =>
      rw [show RE.lits (c :: t) = RE.seq (RE.lit c) (RE.lits t) from rfl] at h
      simp only [mseq] at h
      cases fuel with
      | zero => simp [mseq] at h
      | succ fuel =>
        cases s with
        | nil => simp [mseq] at h
        | cons x xs =>
          simp only [mseq] at h
          by_cases hc : x = c
          · rw [if_pos hc] at h
            subst hc
            have hp := ih fuel _ xs caps res h
            simp [List.isPrefixOf, hp]
          · rw [if_neg hc] at h
            simp at h

/-- A pattern of the shape literal-then-rest can only match where the
literal is a prefix of the remaining input. -/
theorem mseq_seq_lits_isPrefixOf {w : PyStr} {b : RE} {fuel : Nat} {k : List RE}
    {s : PyStr} {caps : List (Nat × PyStr)} {res : PyStr × List (Nat × PyStr)}
    (h : mseq fuel (RE.seq (RE.lits w) b :: k) s caps = some res) :
    w.isPrefixOf s = true := by
  cases fuel with
  | zero => simp [mseq] at h
  | succ fuel =>
    simp only [mseq] at h
    exact mseq_lits_isPrefixOf w fuel _ s caps res h

/-- `re.search` of a pattern that begins with a literal word fails on every
input that does not contain the word. -/
theorem reSearchScan_lits_none {w : PyStr} {b : RE} {ng : Nat} :
    ∀ (fuel : Nat) (s : PyStr), ¬ w <:+: s →
      reSearchScan fuel (RE.seq (RE.lits w) b) ng s = none := by
  intro fuel
  induction fuel with
  | zero => intro s _; rfl
  | succ fuel ih =>
    intro s hs
    have hm : mseq (mseqFuel s) [RE.seq (RE.lits w) b] s [] = none := by
      cases hmm : mseq (mseqFuel s) [RE.seq (RE.lits w) b] s [] with
      | none => rfl
      | some res =>
        exact absurd (List.isPrefixOf_iff_prefix.mp
          (mseq_seq_lits_isPrefixOf hmm)).isInfix hs
    simp only [reSearchScan, hm]
    cases s with
    | nil => rfl
    | cons c t => exact ih t (fun h2 => hs (List.infix_cons h2))

/-- C1 counterexample: `read_ethernet_statistics` applied to the empty
string — an input that certainly lacks any expected section label — does not
raise any error at all: it returns an **empty table**, refuting both "raises
the dedicated parse-miss error" and "never returns an empty table" for this
parser. -/
theorem claim_C1_counterexample : read_ethernet_statistics [] = .ok [] := rfl

/-- C1 (amended): every labelled parser raises `NetstatOutputError` naming
its expected section on every input that does not contain the section
label — the six single-counter and the two dual-counter statistics parsers
(through their shared section search) and the three routing-table parsers
`read_ipv4_routing_table`, `read_ipv6_routing_table` and
`read_interface_routing_table`.  The two unlabelled parsers are the
exceptions to the original universal claim: `read_netstat_connections_list`
checks no section label and only ever produces a table, an `IndexError` or
a `ValueError` — never the parse-miss error — and `read_ethernet_statistics`
performs no section check at all: it never raises and returns a
possibly-empty table (empty on the empty input). -/
theorem claim_C1 :
    (∀ (label : PyStr) (msg : String) (s : PyStr), ¬ label <:+: s →
      readStatisticsTable label msg s = .error (.netstatOutput msg)) ∧
    (∀ (label : PyStr) (msg : String) (s : PyStr), ¬ label <:+: s →
      readStatistics2Table label msg s = .error (.netstatOutput msg)) ∧
    (∀ s : PyStr, ¬ "IPv4 Route Table".toList <:+: s →
      read_ipv4_routing_table s =
        .error (.netstatOutput "No IPv4 routing table found in the cmd_output.")) ∧
    (∀ s : PyStr, ¬ "IPv6 Route Table".toList <:+: s →
      read_ipv6_routing_table s =
        .error (.netstatOutput "No IPv6 routing table found in the cmd_output.")) ∧
    (∀ s : PyStr, ¬ "Interface List".toList <:+: s →
      read_interface_routing_table s =
        .error (.netstatOutput "No Interface List found in the cmd_output.")) ∧
    (∀ s : PyStr, read_netstat_connections_list s = .error .indexError ∨
      (∃ m, read_netstat_connections_list s = .error (.valueError m)) ∨
      ∃ tbl, read_netstat_connections_list s = .ok tbl) ∧
    (∀ s : PyStr, ∃ rows, read_ethernet_statistics s = .ok rows) ∧
    read_ethernet_statistics [] = .ok [] := by
  refine ⟨fun label msg s h => ?_, fun label msg s h => ?_, fun s h => ?_,
    fun s h => ?_, fun s h => ?_, fun s => ?_, fun s => ⟨_, rfl⟩, rfl⟩
  · rw [readStatisticsTable, findSection_none h]
  · rw [readStatistics2Table, findSection_none h]
  · unfold read_ipv4_routing_table reSearch routeTableRE
    rw [reSearchScan_lits_none (s.length + 1) s h]
  · unfold read_ipv6_routing_table reSearch routeTableRE
    rw [reSearchScan_lits_none (s.length + 1) s h]
  · unfold read_interface_routing_table reSearch interfaceTableRE
    rw [reSearchScan_lits_none (s.length + 1) s h]
  · unfold read_netstat_connections_list
    split
    · dsimp only
      split
      · exact Or.inr (Or.inl ⟨_, rfl⟩)
      · exact Or.inr (Or.inr ⟨_, rfl⟩)
    · exact Or.inl rfl

/-- C1 witness: the amended claim at `read_tcp_ipv4_statistics` (its exact
label and message), at `read_icmpv4_statistics` and at the three
routing-table parsers, on an input lacking all the labels. -/
theorem claim_C1_witness :
    readStatisticsTable "TCP Statistics for IPv4".toList
      "No TCP statistics for IPv4 found in the cmd_output." "no such section".toList =
      .error (.netstatOutput "No TCP statistics for IPv4 found in the cmd_output.") ∧
    readStatistics2Table "ICMPv4 Statistics".toList
      "No ICMPv4 statistics found in the cmd_output." "no such section".toList =
      .error (.netstatOutput "No ICMPv4 statistics found in the cmd_output.") ∧
    read_ipv4_routing_table "no such section".toList =
      .error (.netstatOutput "No IPv4 routing table found in the cmd_output.") ∧
    read_ipv6_routing_table "no such section".toList =
      .error (.netstatOutput "No IPv6 routing table found in the cmd_output.") ∧
    read_interface_routing_table "no such section".toList =
      .error (.netstatOutput "No Interface List found in the cmd_output.") :=
  ⟨claim_C1.1 _ _ _ (by decide), claim_C1.2.1 _ _ _ (by decide),
    claim_C1.2.2.1 _ (by decide), claim_C1.2.2.2.1 _ (by decide),
    claim_C1.2.2.2.2.1 _ (by decide)⟩

theorem matchStatRow_digits {s : PyStr} {g : PyStr × PyStr} {rest : PyStr}
    (h : matchStatRow s = some (g, rest)) :
    g.2 ≠ [] ∧ ∀ c ∈ g.2, isDigitChar c := by
  unfold matchStatRow at h
  split at h
  · simp at h
  · split at h
    · simp at h
    · split at h
      · split at h
        · simp at h
        · next hd =>
          simp only [Option.some.injEq, Prod.mk.injEq] at h
          obtain ⟨hg, -⟩ := h
          rw [← hg]
          exact ⟨by simpa using hd, fun c hc => List.mem_takeWhile_imp hc⟩
      · simp at h

theorem matchStatRow2_digits {s : PyStr} {g : PyStr × PyStr × PyStr} {rest : PyStr}
    (h : matchStatRow2 s = some (g, rest)) :
    (g.2.1 ≠ [] ∧ ∀ c ∈ g.2.1, isDigitChar c) ∧
      (g.2.2 ≠ [] ∧ ∀ c ∈ g.2.2, isDigitChar c) := by
  unfold matchStatRow2 at h
  split at h
  · simp at h
  · split at h
    · simp at h
    · split at h
      · next hd1 => simp at h
      · next hd1 =>
        split at h
        · simp at h
        · split at h
          · next hd2 => simp at h
          · next hd2 =>
            simp only [Option.some.injEq, Prod.mk.injEq] at h
            obtain ⟨hg, -⟩ := h
            rw [← hg]
            refine ⟨⟨by simpa using hd1, fun c hc => List.mem_takeWhile_imp hc⟩,
              ⟨by simpa using hd2, fun c hc => List.mem_takeWhile_imp hc⟩⟩

theorem findallStatF_digits :
    ∀ (n : Nat) (s : PyStr), ∀ g ∈ findallStatF n s,
      g.2 ≠ [] ∧ ∀ c ∈ g.2, isDigitChar c := by
  intro n
  induction n with
  | zero => intro s g hg; simp [findallStatF] at hg
  | succ n ih =>
    intro s g hg
    match s with
    | [] => rw [findallStatF_nil] at hg; simp at hg
    | c :: t =>
      match h : matchStatRow (c :: t) with
      | some (g2, rest) =>
        rw [findallStatF_cons_some n h] at hg
        rcases List.mem_cons.mp hg with hg | hg
        · exact hg ▸ matchStatRow_digits h
        · exact ih rest g hg
      | none =>
        rw [findallStatF_cons_none n h] at hg
        exact ih t g hg

theorem findallStat2F_digits :
    ∀ (n : Nat) (s : PyStr), ∀ g ∈ findallStat2F n s,
      (g.2.1 ≠ [] ∧ ∀ c ∈ g.2.1, isDigitChar c) ∧
        (g.2.2 ≠ [] ∧ ∀ c ∈ g.2.2, isDigitChar c) := by
  intro n
  induction n with
  | zero => intro s g hg; simp [findallStat2F] at hg
  | succ n ih =>
    intro s g hg
    match s with
    | [] => simp [findallStat2F] at hg
    | c :: t =>
      rw [findallStat2F] at hg
      revert hg
      match h : matchStatRow2 (c :: t) with
      | some (g2, rest) =>
        intro hg
        rcases List.mem_cons.mp hg with hg | hg
        · exact hg ▸ matchStatRow2_digits h
        · exact ih rest g hg
      | none =>
        intro hg
        exact ih t g hg

theorem pyInt_nonneg {d : PyStr} (hd : d ≠ []) (hdig : ∀ c ∈ d, isDigitChar c) :
    0 ≤ pyInt d := by
  match d with
  | [] => exact absurd rfl hd
  | c :: t =>
    have hc : isDigitChar c = true := hdig c (List.mem_cons_self c t)
    unfold pyInt
    split
    · next heq =>
      exfalso
      have : c = '-' := (List.cons.injEq .. ▸ heq).1
      rw [this] at hc
      simp [isDigitChar] at hc
    · next heq =>
      exfalso
      have : c = '+' := (List.cons.injEq .. ▸ heq).1
      rw [this] at hc
      simp [isDigitChar] at hc
    · omega

/-- C8 counterexample: the accepted input
`"TCP Statistics for IPv4\r\nAb  = 1\r\nAb  = 2\r\n\r\n"` produces a table in
which two rows share the Header `"Ab"` — the parser does not enforce Header
uniqueness. -/
theorem claim_C8_counterexample :
    read_tcp_ipv4_statistics
      "TCP Statistics for IPv4\r\nAb  = 1\r\nAb  = 2\r\n\r\n".toList =
        .ok [⟨"Ab", 1⟩, ⟨"Ab", 2⟩] ∧
    ¬ List.Pairwise (fun a b : StatRow => a.header ≠ b.header)
      [⟨"Ab", 1⟩, ⟨"Ab", 2⟩] := by
  constructor
  · decide
  · decide

/-- C8 (amended): for every input a statistics parser accepts, every parsed
counter is a non-negative integer (the row pattern captures bare digit
strings); Header uniqueness within the table is **not** guaranteed — two rows
may share a Header. -/
theorem claim_C8 :
    (∀ (label : PyStr) (msg : String) (s : PyStr) (t : List StatRow),
      readStatisticsTable label msg s = .ok t → ∀ r ∈ t, 0 ≤ r.value) ∧
    (∀ (label : PyStr) (msg : String) (s : PyStr) (t : List StatRow2),
      readStatistics2Table label msg s = .ok t → ∀ r ∈ t, 0 ≤ r.received ∧ 0 ≤ r.sent) := by
  constructor
  · intro label msg s t h r hr
    rw [readStatisticsTable] at h
    revert h
    match hfs : findSection label s with
    | none => intro h; simp at h
    | some block =>
      intro h
      simp only [Except.ok.injEq] at h
      rw [← h] at hr
      obtain ⟨g, hgmem, hgr⟩ := List.mem_map.mp hr
      obtain ⟨hne, hdig⟩ := findallStatF_digits block.length block g hgmem
      rw [← hgr]
      exact pyInt_nonneg hne hdig
  · intro label msg s t h r hr
    rw [readStatistics2Table] at h
    revert h
    match hfs : findSection label s with
    | none => intro h; simp at h
    | some block =>
      intro h
      simp only [Except.ok.injEq] at h
      rw [← h] at hr
      obtain ⟨g, hgmem, hgr⟩ := List.mem_map.mp hr
      obtain ⟨⟨hne1, hdig1⟩, hne2, hdig2⟩ :=
        findallStat2F_digits block.length block g hgmem
      rw [← hgr]
      exact ⟨pyInt_nonneg hne1 hdig1, pyInt_nonneg hne2 hdig2⟩

/-- C8 witness: the non-negativity consequence at a concrete accepted
input. -/
theorem claim_C8_witness : 0 ≤ (StatRow.mk "In" 7).value :=
  claim_C8.1 "UDP Statistics for IPv4".toList
    "No UDP statistics for IPv4 found in the cmd_output."
    "UDP Statistics for IPv4\r\nIn  = 7\r\n\r\n".toList
    [⟨"In", 7⟩] (by decide) ⟨"In", 7⟩ (by decide)

/-! ## Well-formed statistics blocks (for C3)

A well-formed statistics block, in the sense of the specification, is the
section label followed by lines of the shape
`"  <Header>    = <digits>\r\n"` — header words separated by single spaces,
at least two spaces before the `=`, the value an ASCII digit sequence — and
terminated by a blank line.  The renderers below build exactly those blocks
so that the parsers can be proved to recover every line. -/

/-- Single-space-separated continuation words, each prefixed by one space. -/
def renderTail : List PyStr → PyStr
  | [] => []
  | w :: rest => ' ' :: (w ++ renderTail rest)

/-- Words joined by single spaces: the Header text of a statistics line. -/
def renderWords : List PyStr → PyStr
  | [] => []
  | w :: rest => w ++ renderTail rest

/-- One `Header = Value` line: header words, a padding of `pad + 2` spaces
(so always at least two), and the digit string of the value. -/
structure StatLine where
  words : List PyStr
  pad : Nat
  digits : PyStr

/-- The line without its two-space indent:
`<words>  <pad spaces>= <digits>`. -/
def StatLine.core (l : StatLine) : PyStr :=
  renderWords l.words ++ (List.replicate (l.pad + 2) ' ' ++ ('=' :: ' ' :: l.digits))

/-- The full line with its two-space indent. -/
def StatLine.render (l : StatLine) : PyStr := ' ' :: ' ' :: l.core

/-- Well-formedness: a non-empty word list of non-empty all-word-character
words, and a non-empty all-digit value. -/
def StatLine.WF (l : StatLine) : Prop :=
  l.words ≠ [] ∧ (∀ w ∈ l.words, w ≠ [] ∧ ∀ c ∈ w, isWordChar c) ∧
    l.digits ≠ [] ∧ ∀ c ∈ l.digits, isDigitChar c

instance (l : StatLine) : Decidable l.WF := by
  unfold StatLine.WF
  infer_instance

/-- The lines joined by single `"\r\n"` separators (no trailing one). -/
def joinCores : List StatLine → PyStr
  | [] => []
  | [l] => l.render
  | l :: l2 :: rest => l.render ++ ('\r' :: '\n' :: joinCores (l2 :: rest))

/-- A complete well-formed statistics block: label, newline, the lines, and
the blank-line terminator. -/
def renderStatBlock (label : PyStr) (ls : List StatLine) : PyStr :=
  label ++ ('\r' :: '\n' :: (joinCores ls ++ ['\r', '\n', '\r', '\n']))

/-- The non-negative base-10 integer denoted by a digit string (the
specification-side notion of the value a `Header = Value` line denotes). -/
def decimalValue (d : PyStr) : Nat :=
  d.foldl (fun a c => 10 * a + (c.toNat - 48)) 0

theorem ofDigits_rev_foldl (f : Char → Nat) :
    ∀ (l : List Char) (acc : Nat),
      l.foldl (fun a c => 10 * a + f c) acc =
        acc * 10 ^ l.length + Nat.ofDigits 10 ((l.map f).reverse) := by
  intro l
  induction l with
  | nil => intro acc; simp [Nat.ofDigits]
  | cons c l ih =>
    intro acc
    rw [List.foldl_cons, ih]
    simp only [List.map_cons, List.reverse_cons, List.length_cons]
    rw [Nat.ofDigits_append]
    simp only [Nat.ofDigits_singleton, List.length_reverse, List.length_map]
    ring

theorem pyInt_digits_eq {d : PyStr} (hd : d ≠ []) (hdig : ∀ c ∈ d, isDigitChar c) :
    pyInt d = (decimalValue d : Int) := by
  match d with
  | [] => exact absurd rfl hd
  | c :: t =>
    have hc : isDigitChar c = true := hdig c (List.mem_cons_self c t)
    have hval : decimalValue (c :: t) =
        Nat.ofDigits 10 (((c :: t).map (fun c => c.toNat - 48)).reverse) := by
      rw [decimalValue, ofDigits_rev_foldl]
      simp
    unfold pyInt
    split
    · next heq =>
      exfalso
      have : c = '-' := (List.cons.injEq .. ▸ heq).1
      rw [this] at hc
      simp [isDigitChar] at hc
    · next heq =>
      exfalso
      have : c = '+' := (List.cons.injEq .. ▸ heq).1
      rw [this] at hc
      simp [isDigitChar] at hc
    · rw [hval]

theorem startsCRLF2_of_ne_cr {c : Char} {t : PyStr} (hc : c ≠ '\r') :
    startsCRLF2 (c :: t) = false := by
  have hb : ('\r' == c) = false := by
    rw [beq_eq_false_iff_ne]
    exact fun h => hc h.symm
  rw [startsCRLF2, List.isPrefixOf_cons₂, hb, Bool.false_and]

theorem lazyBody_append {w rest : PyStr} (hw : ∀ c ∈ w, c ≠ '\r')
    (h1 : rest ≠ []) (h2 : startsCRLF2 rest = false) :
    lazyBody (w ++ rest) = w ++ lazyBody rest := by
  induction w with
  | nil => rfl
  | cons c w ih =>
    have hemp : (w ++ rest).isEmpty = false := by
      simp [List.append_eq_nil, h1]
    have hcond : startsCRLF2 (w ++ rest) = false := by
      cases w with
      | nil => simpa using h2
      | cons c2 w2 =>
        rw [List.cons_append]
        exact startsCRLF2_of_ne_cr (hw c2 (by simp))
    rw [List.cons_append, lazyBody, hcond, hemp]
    simp only [Bool.or_self, Bool.false_eq_true, if_false]
    rw [ih (fun x hx => hw x (by simp [hx])), List.cons_append]

theorem lazyBody_terminal {w : PyStr} (hw : ∀ c ∈ w, c ≠ '\r') (hne : w ≠ []) :
    lazyBody (w ++ ['\r', '\n', '\r', '\n']) = w := by
  induction w with
  | nil => exact absurd rfl hne
  | cons c w ih =>
    rw [List.cons_append, lazyBody]
    cases w with
    | nil =>
      have hs : startsCRLF2 ['\r', '\n', '\r', '\n'] = true := rfl
      simp [hs]
    | cons c2 w2 =>
      have hcond : startsCRLF2 ((c2 :: w2) ++ ['\r', '\n', '\r', '\n']) = false := by
        rw [List.cons_append]
        exact startsCRLF2_of_ne_cr (hw c2 (by simp))
      have hemp : ((c2 :: w2) ++ ['\r', '\n', '\r', '\n']).isEmpty = false := by simp
      rw [hcond, hemp]
      simp only [Bool.or_self, Bool.false_eq_true, if_false]
      rw [ih (fun x hx => hw x (by simp [hx])) (by simp)]

theorem mem_renderTail {c : Char} :
    ∀ {ws : List PyStr}, c ∈ renderTail ws → c = ' ' ∨ ∃ w ∈ ws, c ∈ w := by
  intro ws
  induction ws with
  | nil => intro h; simp [renderTail] at h
  | cons w rest ih =>
    intro h
    rw [renderTail] at h
    rcases List.mem_cons.mp h with h | h
    · exact Or.inl h
    · rcases List.mem_append.mp h with h | h
      · exact Or.inr ⟨w, by simp, h⟩
      · rcases ih h with h | ⟨w2, hw2, hc⟩
        · exact Or.inl h
        · exact Or.inr ⟨w2, by simp [hw2], hc⟩

theorem mem_renderWords {c : Char} {ws : List PyStr}
    (h : c ∈ renderWords ws) : c = ' ' ∨ ∃ w ∈ ws, c ∈ w := by
  cases ws with
  | nil => simp [renderWords] at h
  | cons w rest =>
    rw [renderWords] at h
    rcases List.mem_append.mp h with h | h
    · exact Or.inr ⟨w, by simp, h⟩
    · rcases mem_renderTail h with h | ⟨w2, hw2, hc⟩
      · exact Or.inl h
      · exact Or.inr ⟨w2, by simp [hw2], hc⟩

theorem render_no_cr {l : StatLine} (hl : l.WF) : ∀ c ∈ l.render, c ≠ '\r' := by
  obtain ⟨-, hwords, -, hdig⟩ := hl
  intro c hc
  rw [StatLine.render] at hc
  rcases List.mem_cons.mp hc with h | hc
  · subst h; decide
  rcases List.mem_cons.mp hc with h | hc
  · subst h; decide
  rw [StatLine.core] at hc
  rcases List.mem_append.mp hc with h | hc
  · rcases mem_renderWords h with h | ⟨w, hw, hcw⟩
    · subst h; decide
    · have := (hwords w hw).2 c hcw
      intro hcr
      rw [hcr] at this
      simp [isWordChar] at this
  rcases List.mem_append.mp hc with h | hc
  · rw [List.eq_of_mem_replicate h]; decide
  rcases List.mem_cons.mp hc with h | hc
  · subst h; decide
  rcases List.mem_cons.mp hc with h | hc
  · subst h; decide
  · have := hdig c hc
    intro hcr
    rw [hcr] at this
    simp [isDigitChar] at this

theorem render_ne_nil (l : StatLine) : l.render ≠ [] := by
  rw [StatLine.render]
  simp

theorem joinCores_cons (l : StatLine) (rest : List StatLine) :
    ∃ y, joinCores (l :: rest) = ' ' :: ' ' :: y := by
  cases rest with
  | nil => exact ⟨l.core, by rw [joinCores, StatLine.render]⟩
  | cons l2 rest2 =>
    refine ⟨l.core ++ ('\r' :: '\n' :: joinCores (l2 :: rest2)), ?_⟩
    rw [joinCores, StatLine.render, List.cons_append, List.cons_append]

theorem lazyBody_joinCores :
    ∀ (ls : List StatLine), (∀ l ∈ ls, l.WF) → ls ≠ [] →
      lazyBody (joinCores ls ++ ['\r', '\n', '\r', '\n']) = joinCores ls
  | [], _, hne => absurd rfl hne
  | [l], hWF, _ => by
    rw [joinCores]
    exact lazyBody_terminal (render_no_cr (hWF l (by simp))) (render_ne_nil l)
  | l :: l2 :: rest, hWF, _ => by
    rw [joinCores]
    obtain ⟨y, hy⟩ := joinCores_cons l2 rest
    have hih := lazyBody_joinCores (l2 :: rest)
      (fun x hx => hWF x (by simp [List.mem_cons.mp hx])) (by simp)
    rw [List.append_assoc, List.cons_append, List.cons_append]
    have hsp : ('\r' == ' ') = false := by decide
    have hcr : startsCRLF2
        ('\r' :: '\n' :: (joinCores (l2 :: rest) ++ ['\r', '\n', '\r', '\n'])) = false := by
      rw [hy, List.cons_append, startsCRLF2, List.isPrefixOf_cons₂, List.isPrefixOf_cons₂,
        List.isPrefixOf_cons₂]
      simp [hsp]
    rw [lazyBody_append (render_no_cr (hWF l (by simp))) (by simp) hcr]
    rw [lazyBody]
    have hcond1 : startsCRLF2 ('\n' :: (joinCores (l2 :: rest) ++ ['\r', '\n', '\r', '\n'])) =
        false := startsCRLF2_of_ne_cr (by decide)
    rw [hcond1]
    simp only [List.isEmpty_cons, Bool.or_false, Bool.false_eq_true, if_false]
    rw [lazyBody]
    have hcond2 : startsCRLF2 (joinCores (l2 :: rest) ++ ['\r', '\n', '\r', '\n']) = false := by
      rw [hy, List.cons_append]
      exact startsCRLF2_of_ne_cr (by decide)
    have hemp2 : (joinCores (l2 :: rest) ++ ['\r', '\n', '\r', '\n']).isEmpty = false := by
      simp
    rw [hcond2, hemp2]
    simp only [Bool.or_self, Bool.false_eq_true, if_false]
    rw [hih]

theorem crlfRuns_space (y : PyStr) : crlfRuns (' ' :: y) = 0 := rfl

theorem sectionTail_block (ls : List StatLine) (hne : ls ≠ [])
    (hWF : ∀ l ∈ ls, l.WF) :
    sectionTail ('\r' :: '\n' :: (joinCores ls ++ ['\r', '\n', '\r', '\n'])) =
      some (joinCores ls) := by
  obtain ⟨l, rest, rfl⟩ : ∃ l rest, ls = l :: rest := by
    cases ls with
    | nil => exact absurd rfl hne
    | cons l rest => exact ⟨l, rest, rfl⟩
  obtain ⟨y, hy⟩ := joinCores_cons l rest
  have hruns : crlfRuns ('\r' :: '\n' :: (joinCores (l :: rest) ++ ['\r', '\n', '\r', '\n'])) =
      1 := by
    rw [crlfRuns, hy, List.cons_append, crlfRuns_space]
  rw [sectionTail]
  simp only [hruns]
  have hdrop : ('\r' :: '\n' :: (joinCores (l :: rest) ++ ['\r', '\n', '\r', '\n'])).drop
      (2 * 1) = joinCores (l :: rest) ++ ['\r', '\n', '\r', '\n'] := rfl
  simp only [hdrop]
  have hemp : (joinCores (l :: rest) ++ ['\r', '\n', '\r', '\n']).isEmpty = false := by simp
  simp only [hemp, Bool.false_eq_true, if_false, one_ne_zero]
  rw [lazyBody_joinCores (l :: rest) hWF (by simp)]

theorem findSection_append {label r g : PyStr} (hr : r ≠ [])
    (h : sectionTail r = some g) : findSection label (label ++ r) = some g := by
  have hne : label ++ r ≠ [] := fun hh => hr (List.append_eq_nil.mp hh).2
  obtain ⟨c, t, hct⟩ := List.exists_cons_of_ne_nil hne
  rw [hct, findSection]
  have hpre : label.isPrefixOf (c :: t) = true := by
    rw [← hct]
    exact List.isPrefixOf_iff_prefix.mpr ⟨r, rfl⟩
  rw [hpre]
  have hdrop : (c :: t).drop label.length = r := by
    rw [← hct, List.drop_left]
  simp only [if_true, hdrop, h]

theorem dropWhile_eq_self_of_takeWhile_nil {p : Char → Bool} {X : PyStr}
    (hX : X.takeWhile p = []) : X.dropWhile p = X := by
  conv_rhs => rw [← List.takeWhile_append_dropWhile p X]
  rw [hX, List.nil_append]

theorem takeWhile_word_append {w X : PyStr} (hw : ∀ c ∈ w, isWordChar c)
    (hX : X.takeWhile isWordChar = []) : (w ++ X).takeWhile isWordChar = w := by
  rw [List.takeWhile_append_of_pos hw, hX, List.append_nil]

theorem dropWhile_word_append {w X : PyStr} (hw : ∀ c ∈ w, isWordChar c)
    (hX : X.takeWhile isWordChar = []) : (w ++ X).dropWhile isWordChar = X := by
  rw [List.dropWhile_append_of_pos hw, dropWhile_eq_self_of_takeWhile_nil hX]

theorem renderTail_append_head (ws : List PyStr) (y : PyStr) :
    ∃ z, renderTail ws ++ (' ' :: y) = ' ' :: z := by
  cases ws with
  | nil => exact ⟨y, by rw [renderTail, List.nil_append]⟩
  | cons w rest =>
    exact ⟨w ++ renderTail rest ++ (' ' :: y), by
      rw [renderTail, List.cons_append, List.append_assoc]⟩

theorem renderTail_length_ge (ws : List PyStr) : ws.length ≤ (renderTail ws).length := by
  induction ws with
  | nil => simp [renderTail]
  | cons w rest ih =>
    rw [renderTail]
    simp only [List.length_cons, List.length_append]
    omega

theorem wordSeqExtF_renderTail :
    ∀ (n : Nat) (ws : List PyStr) (y : PyStr),
      ws.length ≤ n → (∀ w ∈ ws, w ≠ [] ∧ ∀ c ∈ w, isWordChar c) →
      wordSeqExtF n (renderTail ws ++ (' ' :: ' ' :: y)) =
        (renderTail ws, ' ' :: ' ' :: y) := by
  intro n
  induction n with
  | zero =>
    intro ws y hlen _
    have : ws = [] := List.eq_nil_of_length_eq_zero (Nat.le_zero.mp hlen)
    subst this
    rw [renderTail, List.nil_append]
    rfl
  | succ n ih =>
    intro ws y hlen hws
    cases ws with
    | nil =>
      rw [renderTail, List.nil_append]
      exact wordSeqExtF_stop n (by rw [List.takeWhile_cons_of_neg (by decide)]; rfl)
    | cons w more =>
      obtain ⟨hwne, hwall⟩ := hws w (by simp)
      obtain ⟨z, hz⟩ := renderTail_append_head more (' ' :: y)
      have htX : (renderTail more ++ (' ' :: ' ' :: y)).takeWhile isWordChar = [] := by
        rw [hz, List.takeWhile_cons_of_neg (by decide)]
      have htake : ((w ++ (renderTail more ++ (' ' :: ' ' :: y))).takeWhile isWordChar) = w :=
        takeWhile_word_append hwall htX
      have hdrop : ((w ++ (renderTail more ++ (' ' :: ' ' :: y))).dropWhile isWordChar) =
          renderTail more ++ (' ' :: ' ' :: y) :=
        dropWhile_word_append hwall htX
      rw [renderTail, List.cons_append, List.append_assoc]
      rw [wordSeqExtF_step n (by rw [htake]; simpa using hwne)]
      rw [htake, hdrop]
      rw [ih more y (by simpa using hlen) (fun x hx => hws x (by simp [hx]))]
      rfl

theorem matchStatRow_structured (l : StatLine) (hl : l.WF) (t : PyStr)
    (ht : t = [] ∨ ∃ y, t = '\r' :: y) :
    matchStatRow (l.core ++ t) = some ((renderWords l.words, l.digits), t) := by
  obtain ⟨hwne, hwords, hdne, hdig⟩ := hl
  obtain ⟨w1, ws', hws⟩ : ∃ w1 ws', l.words = w1 :: ws' := by
    cases hx : l.words with
    | nil => exact absurd hx hwne
    | cons a b => exact ⟨a, b, rfl⟩
  have hs : l.core ++ t = w1 ++ (renderTail ws' ++
      (' ' :: ' ' :: (List.replicate l.pad ' ' ++ ('=' :: ' ' :: (l.digits ++ t))))) := by
    rw [StatLine.core, hws, renderWords]
    have hrep : List.replicate (l.pad + 2) ' ' =
        ' ' :: ' ' :: List.replicate l.pad ' ' := by
      rw [Nat.add_comm, List.replicate_add]
      rfl
    rw [hrep]
    simp [List.append_assoc]
  obtain ⟨hw1ne, hw1all⟩ := hwords w1 (hws ▸ List.mem_cons_self w1 ws')
  obtain ⟨z, hz⟩ := renderTail_append_head ws'
    (' ' :: (List.replicate l.pad ' ' ++ ('=' :: ' ' :: (l.digits ++ t))))
  have htX : ((renderTail ws' ++
      (' ' :: ' ' :: (List.replicate l.pad ' ' ++
        ('=' :: ' ' :: (l.digits ++ t))))).takeWhile isWordChar) = [] := by
    rw [hz, List.takeWhile_cons_of_neg (by decide)]
  have htake : ((l.core ++ t).takeWhile isWordChar) = w1 := by
    rw [hs]
    exact takeWhile_word_append hw1all htX
  have hdrop : ((l.core ++ t).dropWhile isWordChar) = renderTail ws' ++
      (' ' :: ' ' :: (List.replicate l.pad ' ' ++ ('=' :: ' ' :: (l.digits ++ t)))) := by
    rw [hs]
    exact dropWhile_word_append hw1all htX
  have hlen : ws'.length ≤ (renderTail ws' ++
      (' ' :: ' ' :: (List.replicate l.pad ' ' ++
        ('=' :: ' ' :: (l.digits ++ t))))).length := by
    refine le_trans (renderTail_length_ge ws') ?_
    simp [List.length_append]
  have hwseq : wordSeqExt ((l.core ++ t).dropWhile isWordChar) =
      (renderTail ws',
        ' ' :: ' ' :: (List.replicate l.pad ' ' ++ ('=' :: ' ' :: (l.digits ++ t)))) := by
    rw [hdrop, wordSeqExt]
    exact wordSeqExtF_renderTail _ ws' _ hlen
      (fun x hx => hwords x (by rw [hws]; exact List.mem_cons_of_mem w1 hx))
  have hr2 : (' ' :: ' ' :: (List.replicate l.pad ' ' ++ ('=' :: ' ' :: (l.digits ++ t)))) =
      List.replicate (l.pad + 2) ' ' ++ ('=' :: ' ' :: (l.digits ++ t)) := by
    rw [Nat.add_comm, List.replicate_add]
    rfl
  have hspaceall : ∀ c ∈ List.replicate (l.pad + 2) ' ', isSpaceChar c = true := by
    intro c hc
    rw [List.eq_of_mem_replicate hc]
    decide
  have htake2 : ((List.replicate (l.pad + 2) ' ' ++
      ('=' :: ' ' :: (l.digits ++ t))).takeWhile isSpaceChar) =
      List.replicate (l.pad + 2) ' ' := by
    rw [List.takeWhile_append_of_pos hspaceall,
      List.takeWhile_cons_of_neg (by decide), List.append_nil]
  have hdrop2 : ((List.replicate (l.pad + 2) ' ' ++
      ('=' :: ' ' :: (l.digits ++ t))).dropWhile isSpaceChar) =
      '=' :: ' ' :: (l.digits ++ t) := by
    rw [List.dropWhile_append_of_pos hspaceall,
      List.dropWhile_cons_of_neg (by decide)]
  have htdig : (t.takeWhile isDigitChar) = [] := by
    rcases ht with rfl | ⟨y, rfl⟩
    · rfl
    · rw [List.takeWhile_cons_of_neg (by decide)]
  have htake3 : ((l.digits ++ t).takeWhile isDigitChar) = l.digits := by
    rw [List.takeWhile_append_of_pos hdig, htdig, List.append_nil]
  have hdrop3 : ((l.digits ++ t).dropWhile isDigitChar) = t := by
    rw [List.dropWhile_append_of_pos hdig, dropWhile_eq_self_of_takeWhile_nil htdig]
  unfold matchStatRow
  rw [htake, hwseq]
  simp only [hr2]
  rw [htake2, hdrop2]
  simp only [List.length_replicate]
  rw [if_neg (by simpa using hw1ne)]
  rw [if_neg (by omega)]
  rw [htake3, hdrop3]
  rw [if_neg (by simpa using hdne)]
  rw [hws, renderWords]

theorem matchStatRow_nonword {c : Char} {t : PyStr} (hc : isWordChar c = false) :
    matchStatRow (c :: t) = none := by
  unfold matchStatRow
  rw [List.takeWhile_cons_of_neg (by simp [hc])]
  rfl

theorem findallStatF_step_some {s : PyStr} {g : PyStr × PyStr} {rest : PyStr}
    (n : Nat) (hs : s ≠ []) (h : matchStatRow s = some (g, rest)) :
    findallStatF (n + 1) s = g :: findallStatF n rest := by
  obtain ⟨c, t, rfl⟩ := List.exists_cons_of_ne_nil hs
  exact findallStatF_cons_some n h

theorem core_ne_nil (l : StatLine) : l.core ++ t ≠ [] := by
  rw [StatLine.core]
  simp

theorem findallStatF_line (l : StatLine) (hl : l.WF) (t : PyStr)
    (ht : t = [] ∨ ∃ y, t = '\r' :: y) (f : Nat) :
    findallStatF (f + 3) (l.render ++ t) =
      (renderWords l.words, l.digits) :: findallStatF f t := by
  rw [StatLine.render, List.cons_append, List.cons_append]
  rw [findallStatF_cons_none (f + 2) (matchStatRow_nonword (by decide))]
  rw [findallStatF_cons_none (f + 1) (matchStatRow_nonword (by decide))]
  rw [findallStatF_step_some f (core_ne_nil l) (matchStatRow_structured l hl t ht)]

theorem render_length_ge (l : StatLine) (hl : l.WF) : 7 ≤ l.render.length := by
  obtain ⟨-, -, hdne, -⟩ := hl
  have h1 : 1 ≤ l.digits.length := List.length_pos.mpr hdne
  rw [StatLine.render, StatLine.core]
  simp only [List.length_cons, List.length_append, List.length_replicate]
  omega

theorem findallStatF_joinCores :
    ∀ (ls : List StatLine) (fuel : Nat), (∀ l ∈ ls, l.WF) →
      (joinCores ls).length ≤ fuel →
      findallStatF fuel (joinCores ls) =
        ls.map (fun l => (renderWords l.words, l.digits))
  | [], fuel, _, _ => by
    rw [joinCores, findallStatF_nil]
    rfl
  | [l], fuel, hWF, hlen => by
    rw [joinCores] at hlen ⊢
    have hrl : 7 ≤ l.render.length := render_length_ge l (hWF l (by simp))
    obtain ⟨f, rfl⟩ : ∃ f, fuel = f + 3 := ⟨fuel - 3, by omega⟩
    rw [show l.render = l.render ++ [] from (List.append_nil _).symm]
    rw [findallStatF_line l (hWF l (by simp)) [] (Or.inl rfl) f]
    rw [findallStatF_nil]
    rfl
  | l :: l2 :: rest, fuel, hWF, hlen => by
    rw [joinCores] at hlen ⊢
    have hrl : 7 ≤ l.render.length := render_length_ge l (hWF l (by simp))
    simp only [List.length_append, List.length_cons] at hlen
    obtain ⟨f, rfl⟩ : ∃ f, fuel = f + 3 := ⟨fuel - 3, by omega⟩
    rw [findallStatF_line l (hWF l (by simp)) ('\r' :: '\n' :: joinCores (l2 :: rest))
      (Or.inr ⟨_, rfl⟩) f]
    obtain ⟨f2, rfl⟩ : ∃ f2, f = f2 + 2 := ⟨f - 2, by omega⟩
    rw [findallStatF_cons_none (f2 + 1) (matchStatRow_nonword (by decide))]
    rw [findallStatF_cons_none f2 (matchStatRow_nonword (by decide))]
    rw [findallStatF_joinCores (l2 :: rest) f2
      (fun x hx => hWF x (List.mem_cons_of_mem l hx)) (by omega)]
    rfl

/-- C3: every well-formed statistics block — the section label followed by
`N` lines of the form `Header = Value` (header words separated by single
spaces, at least two spaces before the `=`, the value an ASCII digit
sequence) and a blank-line terminator — is parsed by the single-counter
statistics parsers into a table of exactly `N` rows whose `Value` fields are
the non-negative base-10 integers denoted by the textual digits. -/
theorem claim_C3 (label : PyStr) (msg : String) (ls : List StatLine)
    (hne : ls ≠ []) (hWF : ∀ l ∈ ls, l.WF) :
    readStatisticsTable label msg (renderStatBlock label ls) =
      .ok (ls.map fun l =>
        ⟨String.mk (renderWords l.words), (decimalValue l.digits : Int)⟩) := by
  rw [readStatisticsTable, renderStatBlock]
  rw [findSection_append (by simp) (sectionTail_block ls hne hWF)]
  unfold findallStat
  dsimp only
  rw [findallStatF_joinCores ls (joinCores ls).length hWF le_rfl]
  rw [List.map_map]
  refine congrArg Except.ok (List.map_congr_left fun l hl => ?_)
  simp only [Function.comp]
  rw [pyInt_digits_eq (hWF l hl).2.2.1 (hWF l hl).2.2.2]

/-- C3 witness: the claimed scenario — the text
`"TCP Statistics for IPv4\r\n  Active Opens                    = 5\r\n\r\n"`
parses to the one-row table with Header `"Active Opens"` and Value `5`. -/
theorem claim_C3_witness :
    read_tcp_ipv4_statistics
      "TCP Statistics for IPv4\r\n  Active Opens                    = 5\r\n\r\n".toList =
      .ok [⟨"Active Opens", 5⟩] := by
  have h := claim_C3 "TCP Statistics for IPv4".toList
    "No TCP statistics for IPv4 found in the cmd_output."
    [⟨[['A', 'c', 't', 'i', 'v', 'e'], ['O', 'p', 'e', 'n', 's']], 18, ['5']⟩]
    (by simp) (by decide)
  have hinput :
      "TCP Statistics for IPv4\r\n  Active Opens                    = 5\r\n\r\n".toList =
      renderStatBlock "TCP Statistics for IPv4".toList
        [⟨[['A', 'c', 't', 'i', 'v', 'e'], ['O', 'p', 'e', 'n', 's']], 18, ['5']⟩] := by
    decide
  rw [read_tcp_ipv4_statistics, hinput, h]
  decide

/-! ## The connection-schema scenario (for C2)

A synthetic connection listing is generated for each subset of the known
column names: the header line carries the subset joined by two spaces, and
the single data row carries one fixed sample value per column, drawn from
the corresponding sub-pattern of `knownColumnRE`.  Input A gives the row no
continuation lines, so both optional columns are empty and dropped; input B
appends a component line and a bracketed executable line, so both optional
columns are kept.  A trailing sentinel line follows the data row in both
inputs because the row pattern requires a terminating line break. -/


/-- The eight known column names of the header-token table (lines 567-583). -/
def knownConnectionHeaders : List String :=
  ["Proto", "Local Address", "Foreign Address", "State", "PID",
   "Time in State (ms)", "Offload State", "Template"]
/-- One sample value per known column, matching that column's sub-pattern. -/
def connSampleValue (h : String) : String :=
  if h = "Proto" then "TCP"
  else if h = "Local Address" then "[::]:1"
  else if h = "Foreign Address" then "[::]:2"
  else if h = "State" then "BOUND"
  else if h = "PID" then "1"
  else if h = "Time in State (ms)" then "2"
  else if h = "Offload State" then "InHost"
  else if h = "Template" then "Internet"
  else ""
/-- Join strings with two-space separators (the header scan and the row
pattern both accept any `\\s+` run between fields). -/
def joinTwoSpaces : List String → String
  | [] => ""
  | [x] => x
  | x :: rest => x ++ "  " ++ joinTwoSpaces rest
/-- The synthetic header line for a subset of the known column names. -/
def connHeaderLine (sub : List String) : String := "  " ++ joinTwoSpaces sub
/-- The synthetic data row: the sample values of the subset. -/
def connRow (sub : List String) : String := "  " ++ joinTwoSpaces (sub.map connSampleValue)
/-- Input A: banner, header line, one data row with no continuation lines,
and a sentinel line supplying the terminating line break. -/
def mkConnInputA (sub : List String) : PyStr :=
  ("x\r\n" ++ connHeaderLine sub ++ "\r\n" ++ connRow sub ++ "\r\nz").toList
/-- Input B: as input A, with a component continuation line and a bracketed
executable continuation line after the data row. -/
def mkConnInputB (sub : List String) : PyStr :=
  ("x\r\n" ++ connHeaderLine sub ++ "\r\n" ++ connRow sub ++ "\r\nC\r\n[c.c]\r\nz").toList
/-- The connection-schema property at one subset: input A yields exactly the
subset as columns, input B yields the subset plus `Component` and
`Executable`. -/
def connSchemaOk (sub : List String) : Prop :=
  Except.map ConnTable.columns (read_netstat_connections_list (mkConnInputA sub)) = .ok sub ∧
  Except.map ConnTable.columns (read_netstat_connections_list (mkConnInputB sub)) =
    .ok (sub ++ ["Component", "Executable"])
instance (sub : List String) : Decidable (connSchemaOk sub) := by
  unfold connSchemaOk; infer_instance
/-- The 256 subsets of `knownConnectionHeaders`, in 16 chunks of 16, so that
the property can be checked chunk by chunk. -/
def connChunk (i : Nat) : List (List String) :=
  (knownConnectionHeaders.sublists.drop (16 * i)).take 16

set_option maxRecDepth 100000 in
/-- Chunk 0 of the connection-schema check, settled by evaluation. -/
theorem connChunk_ok_0 : ∀ sub, sub ∈ connChunk 0 → sub ≠ [] → connSchemaOk sub := by
  decide

set_option maxRecDepth 100000 in
/-- Chunk 1 of the connection-schema check, settled by evaluation. -/
theorem connChunk_ok_1 : ∀ sub, sub ∈ connChunk 1 → sub ≠ [] → connSchemaOk sub := by
  decide

set_option maxRecDepth 100000 in
/-- Chunk 2 of the connection-schema check, settled by evaluation. -/
theorem connChunk_ok_2 : ∀ sub, sub ∈ connChunk 2 → sub ≠ [] → connSchemaOk sub := by
  decide

set_option maxRecDepth 100000 in
/-- Chunk 3 of the connection-schema check, settled by evaluation. -/
theorem connChunk_ok_3 : ∀ sub, sub ∈ connChunk 3 → sub ≠ [] → connSchemaOk sub := by
  decide

set_option maxRecDepth 100000 in
/-- Chunk 4 of the connection-schema check, settled by evaluation. -/
theorem connChunk_ok_4 : ∀ sub, sub ∈ connChunk 4 → sub ≠ [] → connSchemaOk sub := by
  decide

set_option maxRecDepth 100000 in
/-- Chunk 5 of the connection-schema check, settled by evaluation. -/
theorem connChunk_ok_5 : ∀ sub, sub ∈ connChunk 5 → sub ≠ [] → connSchemaOk sub := by
  decide

set_option maxRecDepth 100000 in
/-- Chunk 6 of the connection-schema check, settled by evaluation. -/
theorem connChunk_ok_6 : ∀ sub, sub ∈ connChunk 6 → sub ≠ [] → connSchemaOk sub := by
  decide

set_option maxRecDepth 100000 in
/-- Chunk 7 of the connection-schema check, settled by evaluation. -/
theorem connChunk_ok_7 : ∀ sub, sub ∈ connChunk 7 → sub ≠ [] → connSchemaOk sub := by
  decide

set_option maxRecDepth 100000 in
/-- Chunk 8 of the connection-schema check, settled by evaluation. -/
theorem connChunk_ok_8 : ∀ sub, sub ∈ connChunk 8 → sub ≠ [] → connSchemaOk sub := by
  decide

set_option maxRecDepth 100000 in
/-- Chunk 9 of the connection-schema check, settled by evaluation. -/
theorem connChunk_ok_9 : ∀ sub, sub ∈ connChunk 9 → sub ≠ [] → connSchemaOk sub := by
  decide

set_option maxRecDepth 100000 in
/-- Chunk 10 of the connection-schema check, settled by evaluation. -/
theorem connChunk_ok_10 : ∀ sub, sub ∈ connChunk 10 → sub ≠ [] → connSchemaOk sub := by
  decide

set_option maxRecDepth 100000 in
/-- Chunk 11 of the connection-schema check, settled by evaluation. -/
theorem connChunk_ok_11 : ∀ sub, sub ∈ connChunk 11 → sub ≠ [] → connSchemaOk sub := by
  decide

set_option maxRecDepth 100000 in
/-- Chunk 12 of the connection-schema check, settled by evaluation. -/
theorem connChunk_ok_12 : ∀ sub, sub ∈ connChunk 12 → sub ≠ [] → connSchemaOk sub := by
  decide

set_option maxRecDepth 100000 in
/-- Chunk 13 of the connection-schema check, settled by evaluation. -/
theorem connChunk_ok_13 : ∀ sub, sub ∈ connChunk 13 → sub ≠ [] → connSchemaOk sub := by
  decide

set_option maxRecDepth 100000 in
/-- Chunk 14 of the connection-schema check, settled by evaluation. -/
theorem connChunk_ok_14 : ∀ sub, sub ∈ connChunk 14 → sub ≠ [] → connSchemaOk sub := by
  decide

set_option maxRecDepth 100000 in
/-- Chunk 15 of the connection-schema check, settled by evaluation. -/
theorem connChunk_ok_15 : ∀ sub, sub ∈ connChunk 15 → sub ≠ [] → connSchemaOk sub := by
  decide

set_option maxRecDepth 10000 in
/-- The connection-schema property over every subset, assembled from the
sixteen chunks. -/
theorem connAllOk : ∀ sub, sub ∈ knownConnectionHeaders.sublists → sub ≠ [] → connSchemaOk sub := by
  have hsplit : knownConnectionHeaders.sublists =
      connChunk 0 ++ (connChunk 1 ++ (connChunk 2 ++ (connChunk 3 ++ (connChunk 4 ++ (connChunk 5 ++ (connChunk 6 ++ (connChunk 7 ++ (connChunk 8 ++ (connChunk 9 ++ (connChunk 10 ++ (connChunk 11 ++ (connChunk 12 ++ (connChunk 13 ++ (connChunk 14 ++ (connChunk 15))))))))))))))) := by rfl
  intro sub hmem hne
  rw [hsplit] at hmem
  rcases List.mem_append.mp hmem with h | hmem
  · exact connChunk_ok_0 sub h hne
  rcases List.mem_append.mp hmem with h | hmem
  · exact connChunk_ok_1 sub h hne
  rcases List.mem_append.mp hmem with h | hmem
  · exact connChunk_ok_2 sub h hne
  rcases List.mem_append.mp hmem with h | hmem
  · exact connChunk_ok_3 sub h hne
  rcases List.mem_append.mp hmem with h | hmem
  · exact connChunk_ok_4 sub h hne
  rcases List.mem_append.mp hmem with h | hmem
  · exact connChunk_ok_5 sub h hne
  rcases List.mem_append.mp hmem with h | hmem
  · exact connChunk_ok_6 sub h hne
  rcases List.mem_append.mp hmem with h | hmem
  · exact connChunk_ok_7 sub h hne
  rcases List.mem_append.mp hmem with h | hmem
  · exact connChunk_ok_8 sub h hne
  rcases List.mem_append.mp hmem with h | hmem
  · exact connChunk_ok_9 sub h hne
  rcases List.mem_append.mp hmem with h | hmem
  · exact connChunk_ok_10 sub h hne
  rcases List.mem_append.mp hmem with h | hmem
  · exact connChunk_ok_11 sub h hne
  rcases List.mem_append.mp hmem with h | hmem
  · exact connChunk_ok_12 sub h hne
  rcases List.mem_append.mp hmem with h | hmem
  · exact connChunk_ok_13 sub h hne
  rcases List.mem_append.mp hmem with h | hmem
  · exact connChunk_ok_14 sub h hne
  exact connChunk_ok_15 sub hmem hne

/-- C2: for every nonempty subset of the known column names placed on a
synthetic header line, `read_netstat_connections_list` returns a table whose
column list is exactly that subset when the data row has no component or
executable continuation line (both all-empty optional columns are dropped),
and exactly that subset followed by `Component` and `Executable` when both
continuation lines are present. -/
theorem claim_C2 : ∀ sub, sub ∈ knownConnectionHeaders.sublists → sub ≠ [] ->
    Except.map ConnTable.columns (read_netstat_connections_list (mkConnInputA sub)) = .ok sub ∧
    Except.map ConnTable.columns (read_netstat_connections_list (mkConnInputB sub)) =
      .ok (sub ++ ["Component", "Executable"]) :=
  fun sub hmem hne => connAllOk sub hmem hne

/-- Witness for C2 at the full set of known column names. -/
theorem claim_C2_witness :
    (knownConnectionHeaders ∈ knownConnectionHeaders.sublists ∧ knownConnectionHeaders ≠ []) ∧
    Except.map ConnTable.columns
      (read_netstat_connections_list (mkConnInputA knownConnectionHeaders)) = .ok knownConnectionHeaders ∧
    Except.map ConnTable.columns
      (read_netstat_connections_list (mkConnInputB knownConnectionHeaders)) =
      .ok (knownConnectionHeaders ++ ["Component", "Executable"]) :=
  ⟨⟨by decide, by decide⟩, claim_C2 knownConnectionHeaders (by decide) (by decide)⟩

end PyWindowsCMD
